import Mathlib

/-!
# aeroTestTask: session tokens and file storage

A shallow embedding of `src/model/appUtil.js`, `src/model/validation.js`,
`src/model/user.js`, `src/model/file.js` and of the middleware of
`src/controllers/user.js` and `src/controllers/file.js`.

* The shared token table `app.locals.tokens` is a `List Token`; every function that can
  touch it returns the table as it stands afterwards.
* A thrown JavaScript exception is a value of `Thrown`.
* The libraries `jsonwebtoken` and `validator` are not part of the repository: they are the
  fields of `Env`.  `jwt.sign` and `jwt.verify` read the clock, so both take the current time
  (in seconds) as their first argument.
* The table `files` is a list of rows, the filesystem the list of the paths of the existing
  files; the queries on `files` by id and the `fs` calls are total functions on them (a
  failing connection or a path that names a directory is not modelled there). The user
  queries go through a `Pool`, which can be down.
* The conversions of strings to numbers are built-ins of the runtime, the fields of `Js`;
  the functions of the module `path` are modelled in their POSIX form.
-/

namespace Aero

/-! ## Data model -/

/-- An entry of `app.locals.tokens`: the object `{id, type, value}`. -/
structure Token where
  id : String
  type : String
  value : String
deriving DecidableEq, Repr

/-- A thrown JavaScript exception. `appError` is `new AppError(message, statusCode)`;
`referenceError` and `typeError` are the built-in errors raised by the runtime; `error` is
any other `Error` object, such as the ones the database driver or `bcryptjs` reject with. -/
inductive Thrown where
  | appError (message : String) (statusCode : Nat)
  | referenceError (message : String)
  | typeError (message : String)
  | error (message : String)
deriving DecidableEq, Repr

/-- The external libraries and the process environment.
`jwtVerify now token secret` is `jwt.verify(token, secret)`: `.error m` when it throws an
error with message `m`, `.ok b` when it returns a payload whose truthiness is `b`. -/
structure Env where
  isJWT : String → Bool
  jwtSign : Nat → String → String → String → String
  jwtVerify : Nat → String → String → Except String Bool
  accessSecret : String
  refreshSecret : String

/-- What `res.status(..).json(..)` sends. -/
inductive Response where
  | success (statusCode : Nat) (data : List (String × String))
  | failure (statusCode : Nat) (status : String) (message : String)
deriving DecidableEq, Repr

/-- The observable outcome of one middleware or handler: the responses it sent, whether it
called `next()`, the exception that escaped it, and the token table afterwards. -/
structure StepResult where
  sent : List Response
  next : Bool
  thrown : Option Thrown
  tokens : List Token
deriving DecidableEq, Repr

/-! ## `src/model/appUtil.js` -/

/-- The first decimal digit of a number: the first character of the template string
built from `statusCode`. -/
def leadingDigit : Nat → Nat → Nat
  | 0, n => n
  | fuel + 1, n => if n < 10 then n else leadingDigit fuel (n / 10)

/-- The `status` field computed by the `AppError` constructor. -/
def appErrorStatus (statusCode : Nat) : String :=
  if leadingDigit statusCode statusCode = 4 then "fail" else "error"

/-- The fields `statusCode`, `status`, `message` that `handleError` reads from a thrown value. -/
def Thrown.statusCode : Thrown → Option Nat
  | .appError _ c => some c
  | .referenceError _ => none
  | .typeError _ => none
  | .error _ => none

def Thrown.status : Thrown → Option String
  | .appError _ c => some (appErrorStatus c)
  | .referenceError _ => none
  | .typeError _ => none
  | .error _ => none

def Thrown.message : Thrown → String
  | .appError m _ => m
  | .referenceError m => m
  | .typeError m => m
  | .error m => m

/-- The JavaScript `a || b` on strings. -/
def orElseStr (a b : String) : String := if a = "" then b else a

/-- The response of `handleError(res, err)` for a thrown exception. -/
def handleError (err : Thrown) : Response :=
  .failure
    (match err.statusCode with | some c => if c = 0 then 500 else c | none => 500)
    (match err.status with | some s => orElseStr s "error" | none => "error")
    (orElseStr err.message "something bad happend")

/-- The response of `handleError(res, {statusCode, status, message})` for an object literal. -/
def handleErrorObj (statusCode : Nat) (status message : String) : Response :=
  .failure (if statusCode = 0 then 500 else statusCode) (orElseStr status "error")
    (orElseStr message "something bad happend")

/-- The response of `handle200(res, data, statusCode)`. -/
def handle200 (data : List (String × String)) (statusCode : Option Nat) : Response :=
  .success (match statusCode with | some c => if c = 0 then 200 else c | none => 200) data

/-! ## Token issuance, `src/controllers/user.js` -/

/-- The assignment `item.value = token` on the entry found by `tokens.find(p)`:
the first entry satisfying `p` gets the new value, in place. -/
def setFirstValue (p : Token → Bool) (v : String) : List Token → List Token
  | [] => []
  | t :: ts => if p t then { t with value := v } :: ts else t :: setFirstValue p v ts

/-- The function `generateRefreshToken(id, tokens)` at time `now`: the returned token and the table. -/
def generateRefreshToken (env : Env) (now : Nat) (id : String) (tokens : List Token) :
    String × List Token :=
  let token := env.jwtSign now id env.refreshSecret "1d"
  match tokens.find? (fun t => t.id == id && t.type == "refresh") with
  | none => (token, tokens ++ [{ id := id, type := "refresh", value := token }])
  | some _ => (token, setFirstValue (fun t => t.id == id && t.type == "refresh") token tokens)

/-- The function `generateAccessToken(id, tokens)` at time `now`: the returned token and the table. -/
def generateAccessToken (env : Env) (now : Nat) (id : String) (tokens : List Token) :
    String × List Token :=
  let token := env.jwtSign now id env.accessSecret "10m"
  match tokens.find? (fun t => t.id == id && t.type == "bearer") with
  | none => (token, tokens ++ [{ id := id, type := "bearer", value := token }])
  | some _ => (token, setFirstValue (fun t => t.id == id && t.type == "bearer") token tokens)

/-! ## Token validation, `src/model/validation.js` -/

/-- The function `isValidBearerToken(token, tokens)` at time `now`: what it returns or throws, and
the shared table afterwards. On a failed verification the statement
`req.app.locals.tokens = ...` is reached, but no `req` is bound in `validation.js`:
evaluating it raises a `ReferenceError`, so neither the filter nor the `AppError` of the
next line is reached. -/
def isValidBearerToken (env : Env) (now : Nat) (token : String) (tokens : List Token) :
    Except Thrown Bool × List Token :=
  match tokens.find? (fun t => t.value == token && t.type == "bearer") with
  | none => (.error (.appError "invalid authorization token" 403), tokens)
  | some _ =>
    if !env.isJWT token then (.error (.appError "invalid authorization token" 403), tokens)
    else
      let vm : Bool × String :=
        match env.jwtVerify now token env.accessSecret with
        | .ok v => (v, "")
        | .error m => (false, m)
      if !vm.1 || vm.2 != "" then
        (.error (.referenceError "req is not defined"), tokens)
      else (.ok true, tokens)

/-- The function `isValidRefreshToken(token, tokens)` at time `now`. On a failed verification
`tokens = tokens.filter(..)` rebinds the parameter only: the filtered list is dropped and
the shared table is what it was. -/
def isValidRefreshToken (env : Env) (now : Nat) (token : String) (tokens : List Token) :
    Except Thrown Bool × List Token :=
  match tokens.find? (fun t => t.value == token && t.type == "refresh") with
  | none => (.error (.appError "invalid refresh token" 403), tokens)
  | some _ =>
    if !env.isJWT token then (.error (.appError "invalid refresh token" 403), tokens)
    else
      let vm : Bool × String :=
        match env.jwtVerify now token env.refreshSecret with
        | .ok v => (v, "")
        | .error m => (false, m)
      if !vm.1 || vm.2 != "" then
        let _localTokens := tokens.filter (fun t => t.value != token)
        (.error (.appError (orElseStr vm.2 "token incorrect") 403), tokens)
      else (.ok true, tokens)

/-! ## Middleware and handlers, `src/controllers/user.js` -/

/-- The middleware `verifyAccessToken` with `req.bearer = bearer`. -/
def verifyAccessToken (env : Env) (now : Nat) (bearer : String) (tokens : List Token) :
    StepResult :=
  match isValidBearerToken env now bearer tokens with
  | (.error err, tokens') => { sent := [handleError err], next := false, thrown := none, tokens := tokens' }
  | (.ok _, tokens') => { sent := [], next := true, thrown := none, tokens := tokens' }

/-- The middleware `verifyRefreshToken` with `req.body.refresh = refresh`. -/
def verifyRefreshToken (env : Env) (now : Nat) (refresh : String) (tokens : List Token) :
    StepResult :=
  match isValidRefreshToken env now refresh tokens with
  | (.error err, tokens') => { sent := [handleError err], next := false, thrown := none, tokens := tokens' }
  | (.ok _, tokens') => { sent := [], next := true, thrown := none, tokens := tokens' }

/-- The handler `refreshAccessToken` with `req.body.refresh = refresh`. When no entry is found
the error response is sent and execution goes on to `item.id`, which throws a `TypeError`
(its message is the one of current Node releases). -/
def refreshAccessToken (env : Env) (now : Nat) (refresh : String) (tokens : List Token) :
    StepResult :=
  match tokens.find? (fun t => t.value == refresh && t.type == "refresh") with
  | none =>
    { sent := [handleErrorObj 403 "fail" "incorrect refresh token"], next := false,
      thrown := some (.typeError "Cannot read properties of undefined (reading 'id')"),
      tokens := tokens }
  | some item =>
    let r := generateAccessToken env now item.id tokens
    { sent := [handle200 [("bearer", r.1)] none], next := false, thrown := none, tokens := r.2 }

/-- The handler `logoutUser` with `req.bearer = bearer`. When no entry is found the error
response is sent and execution goes on. The second `find` evaluates `item.id` inside its
callback: on a table with an entry the callback runs and throws a `TypeError` before the
table is reassigned; on the empty table it never runs, the empty table is reassigned to
itself and `handle200` fails on the response that was already sent. -/
def logoutUser (bearer : String) (tokens : List Token) : StepResult :=
  match tokens.find? (fun t => t.value == bearer && t.type == "bearer") with
  | none =>
    match tokens with
    | [] =>
      { sent := [handleErrorObj 403 "fail" "incorrect bearer token"], next := false,
        thrown := some (.error "Cannot set headers after they are sent to the client"),
        tokens := [] }
    | _ :: _ =>
      { sent := [handleErrorObj 403 "fail" "incorrect bearer token"], next := false,
        thrown := some (.typeError "Cannot read properties of undefined (reading 'id')"),
        tokens := tokens }
  | some item =>
    let refresh : String :=
      match tokens.find? (fun t => t.id == item.id && t.type == "refresh") with
      | some refreshItem => refreshItem.value
      | none => ""
    { sent := [handle200 [] none], next := false, thrown := none,
      tokens := tokens.filter (fun t => t.value != bearer && t.value != refresh) }

/-- Two pipeline steps in sequence: the second runs, on the table the first left, only when
the first called `next()`. -/
def andThen (first : StepResult) (second : List Token → StepResult) : StepResult :=
  if first.next then
    let s := second first.tokens
    { sent := first.sent ++ s.sent, next := s.next, thrown := s.thrown, tokens := s.tokens }
  else first

/-- The route `GET /logout` of `src/routes/userRoute.js`, after `getBearerFromHeader` has stored
the bearer token in `req.bearer`: `verifyAccessToken`, then `logoutUser`. -/
def logoutRoute (env : Env) (now : Nat) (bearer : String) (tokens : List Token) : StepResult :=
  andThen (verifyAccessToken env now bearer tokens) (logoutUser bearer)

/-- The route `POST /signin/new_token` of `src/routes/userRoute.js` with the parsed body field
`refresh`: `verifyRefreshToken`, then `refreshAccessToken`. -/
def newTokenRoute (env : Env) (now : Nat) (refresh : String) (tokens : List Token) : StepResult :=
  andThen (verifyRefreshToken env now refresh tokens) (refreshAccessToken env now refresh)

/-! ## Properties of the token table -/

/-- At most one entry per (subject id, kind) pair. -/
def UniquePerKind (tokens : List Token) : Prop :=
  tokens.Pairwise (fun a b => ¬ (a.id = b.id ∧ a.type = b.type))

instance (tokens : List Token) : Decidable (UniquePerKind tokens) := by
  unfold UniquePerKind; infer_instance

/-- The entries of a given subject and kind. -/
def entriesOf (id type : String) (tokens : List Token) : List Token :=
  tokens.filter (fun t => t.id == id && t.type == type)

/-- The tables `app.locals.tokens` can hold: it starts empty (`src/server.js`) and is
changed by `generateAccessToken`, `generateRefreshToken` and `logoutUser` only. -/
inductive Reachable (env : Env) : List Token → Prop where
  | init : Reachable env []
  | access (now : Nat) (id : String) (tokens : List Token) :
      Reachable env tokens → Reachable env (generateAccessToken env now id tokens).2
  | refresh (now : Nat) (id : String) (tokens : List Token) :
      Reachable env tokens → Reachable env (generateRefreshToken env now id tokens).2
  | logout (bearer : String) (tokens : List Token) :
      Reachable env tokens → Reachable env (logoutUser bearer tokens).tokens

/-- A fact about `jwt.sign`: the signed payload carries the subject id, so access tokens
signed for two different subjects are different strings. -/
def SignIdentifiesSubject (env : Env) : Prop :=
  ∀ now now2 id id2, env.jwtSign now id env.accessSecret "10m" =
    env.jwtSign now2 id2 env.accessSecret "10m" → id = id2

/-- A library instance for examples whose tokens are the clock in unary, a dot and the
subject id. -/
def unaryEnv : Env where
  isJWT := fun _ => true
  jwtSign := fun now id _ _ => String.mk (List.replicate now 't' ++ '.' :: id.toList)
  jwtVerify := fun _ _ _ => .ok true
  accessSecret := "A"
  refreshSecret := "R"

/-- The table has an entry of the given kind whose value is the token. -/
def HasEntry (type token : String) (tokens : List Token) : Prop :=
  ∃ t ∈ tokens, t.type = type ∧ t.value = token

instance (type token : String) (tokens : List Token) : Decidable (HasEntry type token tokens) := by
  unfold HasEntry; infer_instance

/-- The call `jwt.verify(token, secret)` at time `now` succeeds: it returns a payload (a truthy
value) and does not throw. -/
def verifies (env : Env) (now : Nat) (token secret : String) : Bool :=
  match env.jwtVerify now token secret with
  | .ok true => true
  | _ => false

/-- A library instance for examples: every string with exactly two dots is a token, and a
token verifies unless it starts with the letter `x`. -/
def demoEnv : Env where
  isJWT := fun s => (s.toList.filter (fun c => c == '.')).length == 2
  jwtSign := fun now id secret ttl => String.join [id, ".", toString now, ttl, ".", secret]
  jwtVerify := fun _ token _ =>
    if token.toList.head? = some 'x' then .error "jwt expired" else .ok true
  accessSecret := "A"
  refreshSecret := "R"

/-! ## File store, `src/model/file.js`

The metadata store is the list of the rows of the table `files` together with its
auto-increment counter; the filesystem is the list of the paths of the files that exist.
`resolve p` stands for `path.join(__dirname, '..', p)`, a function of the Node library.
An `id` argument is the number `Number(id)` the queries receive. -/

/-- A row of the table `files`. -/
structure FileRow where
  id : Nat
  name : String
  extension : String
  mimetype : String
  size : Nat
  uploaded : Nat
  path : String
deriving DecidableEq, Repr

/-- The object `req.file.db_data` built by `populateFileWithDBData`; its field `uploaded` is
the SQL expression `CURRENT_TIMESTAMP()` and is filled in by the store. -/
structure DbData where
  name : String
  extension : String
  mimetype : String
  size : Nat
  path : String
deriving DecidableEq, Repr

/-- The metadata store and the filesystem. -/
structure World where
  rows : List FileRow
  autoIncrement : Nat
  files : List String
deriving DecidableEq, Repr

/-- The call `fs.existsSync(p)`. -/
def existsSync (files : List String) (p : String) : Bool := files.contains p

/-- The call `unlink(p)` on an existing file. -/
def unlink (files : List String) (p : String) : List String := files.filter (fun q => q != p)

/-- The row written by `SET ?` with `db_data` at time `now`, keeping the id. -/
def setData (r : FileRow) (d : DbData) (now : Nat) : FileRow :=
  { id := r.id, name := d.name, extension := d.extension, mimetype := d.mimetype,
    size := d.size, uploaded := now, path := d.path }

/-- The query `SELECT * FROM files WHERE id=?`. -/
def sqlSelectById (rows : List FileRow) (id : Nat) : List FileRow :=
  rows.filter (fun r => r.id == id)

/-- The query `INSERT INTO files SET ?` at time `now`: the rows, the counter and `insertId`. -/
def sqlInsert (rows : List FileRow) (autoIncrement : Nat) (d : DbData) (now : Nat) :
    List FileRow × Nat × Nat :=
  (rows ++ [{ id := autoIncrement, name := d.name, extension := d.extension,
              mimetype := d.mimetype, size := d.size, uploaded := now, path := d.path }],
   autoIncrement + 1, autoIncrement)

/-- The query `DELETE FROM files WHERE id=?`: the rows left and `affectedRows`. -/
def sqlDeleteById (rows : List FileRow) (id : Nat) : List FileRow × Nat :=
  (rows.filter (fun r => r.id != id), (rows.filter (fun r => r.id == id)).length)

/-- The query `UPDATE files SET ? WHERE id = ?` at time `now`: the rows afterwards and
`changedRows`, the number of matched rows whose content is not what it was. -/
def sqlUpdateById (rows : List FileRow) (id : Nat) (d : DbData) (now : Nat) :
    List FileRow × Nat :=
  (rows.map (fun r => if r.id == id then setData r d now else r),
   (rows.filter (fun r => r.id == id && setData r d now != r)).length)

/-- The function `getFileInfoByIdOrThrowTheException(pool, id)`. The message prints the id as
the number the query received; the code prints the argument as it was passed, which is the
same text for an id in its usual decimal form. -/
def getFileInfoByIdOrThrowTheException (w : World) (id : Nat) : Except Thrown FileRow :=
  match sqlSelectById w.rows id with
  | [] => .error (.appError (String.join ["file by id ", toString id, " not found"]) 404)
  | row :: _ => .ok row

/-- The function `uploadFileOrThrowTheException(pool, file)` at time `now`, with
`file.db_data = d`: the result and the state afterwards. -/
def uploadFileOrThrowTheException (now : Nat) (w : World) (d : DbData) :
    Except Thrown FileRow × World :=
  let results := sqlInsert w.rows w.autoIncrement d now
  let w1 : World := { w with rows := results.1, autoIncrement := results.2.1 }
  (getFileInfoByIdOrThrowTheException w1 results.2.2, w1)

/-- The function `deleteFileByIdOrThrowTheException(pool, id)`: the field `deletedRows` of the
returned object and the state afterwards. -/
def deleteFileByIdOrThrowTheException (resolve : String → String) (w : World) (id : Nat) :
    Except Thrown Nat × World :=
  let result := sqlSelectById w.rows id
  let filePath := resolve (match result with | row :: _ => row.path | [] => "")
  let resultSet := sqlDeleteById w.rows id
  let deletedRows := resultSet.2
  let w1 : World := { w with rows := resultSet.1 }
  if deletedRows > 0 then
    if existsSync w1.files filePath then
      (.ok deletedRows, { w1 with files := unlink w1.files filePath })
    else (.ok deletedRows, w1)
  else (.ok deletedRows, w1)

/-- The function `updateFileByIdOrThrowTheException(pool, id, file)` at time `now`, with
`file.db_data = d`: the returned row (`none` for `undefined`) and the state afterwards. -/
def updateFileByIdOrThrowTheException (resolve : String → String) (now : Nat) (w : World)
    (id : Nat) (d : DbData) : Except Thrown (Option FileRow) × World :=
  match getFileInfoByIdOrThrowTheException w id with
  | .error err => (.error err, w)
  | .ok oldVersion =>
    let oldFilePath := resolve oldVersion.path
    let resultSet := sqlUpdateById w.rows id d now
    let w1 : World := { w with rows := resultSet.1 }
    if resultSet.2 > 0 then
      let w2 : World :=
        if existsSync w1.files oldFilePath then { w1 with files := unlink w1.files oldFilePath }
        else w1
      match getFileInfoByIdOrThrowTheException w2 id with
      | .error err => (.error err, w2)
      | .ok row => (.ok (some row), w2)
    else (.ok none, w1)

/-- Every row's path names an existing file. -/
def RowsHaveFiles (resolve : String → String) (w : World) : Prop :=
  ∀ r ∈ w.rows, resolve r.path ∈ w.files

instance (resolve : String → String) (w : World) : Decidable (RowsHaveFiles resolve w) := by
  unfold RowsHaveFiles; infer_instance

/-- Distinct rows have paths that name distinct files. -/
def DistinctPaths (resolve : String → String) (w : World) : Prop :=
  w.rows.Pairwise (fun a b => resolve a.path ≠ resolve b.path)

instance (resolve : String → String) (w : World) : Decidable (DistinctPaths resolve w) := by
  unfold DistinctPaths; infer_instance

/-- A stand-in for `path.join(__dirname, '..', p)` in examples. -/
def demoResolve (p : String) : String := String.join ["/srv/app/", p]

/-- A state for examples: two rows, each with its file, and one freshly written file. -/
def demoWorld : World where
  rows := [{ id := 1, name := "a.txt", extension := "txt", mimetype := "text/plain", size := 3,
             uploaded := 10, path := "upload/f1" },
           { id := 2, name := "b.png", extension := "png", mimetype := "image/png", size := 9,
             uploaded := 11, path := "upload/f2" }]
  autoIncrement := 3
  files := ["/srv/app/upload/f1", "/srv/app/upload/f2", "/srv/app/upload/f3"]

/-- The `db_data` of the freshly written file of `demoWorld`. -/
def demoData : DbData where
  name := "c.txt"
  extension := "txt"
  mimetype := "text/plain"
  size := 5
  path := "upload/f3"

/-! ## JavaScript values and the file list, `src/model/file.js`

Numbers are modelled on the integers and `NaN`: a number is a double whose value is an
integer, and a product or a difference is the exact result rounded to the nearest double,
ties to even, as the runtime computes it. Fractions, infinities (results of 2^1024 and
more) and the negative zero are outside the model. The conversions of strings are
built-ins of the runtime: they are the fields of `Js`. -/

/-- A JavaScript number: `NaN` or an integer. -/
inductive JsNum where
  | nan
  | int (i : Int)
deriving DecidableEq, Repr

/-- A value an argument or a query parameter can be: `undefined`, a number or a string. -/
inductive JsVal where
  | undefined
  | num (n : JsNum)
  | str (s : String)
deriving DecidableEq, Repr

/-- The built-ins of the runtime on strings: `Number(s)`, `isNaN(parseFloat(s))` and
`isFinite(s)`. -/
structure Js where
  toNumber : String → JsNum
  parseFloatIsNaN : String → Bool
  isFinite : String → Bool

/-- The exponent `e` of the spacing `2 ^ e` between the doubles around `n`: the least `e`
from the given one on with `n / 2 ^ e < 2 ^ 53`. -/
def spacingExponent : Nat → Nat → Nat → Nat
  | 0, _, e => e
  | fuel + 1, n, e => if n / 2 ^ e < 2 ^ 53 then e else spacingExponent fuel n (e + 1)

/-- The double nearest to a natural number below `2 ^ 1024`, ties going to the even
significand. Every natural number below `2 ^ 53` is a double. -/
def roundNat (n : Nat) : Nat :=
  if n < 2 ^ 53 then n
  else
    let e := spacingExponent 1100 n 0
    let q := n / 2 ^ e
    let r := n % 2 ^ e
    if 2 ^ e < 2 * r ∨ (2 * r = 2 ^ e ∧ q % 2 = 1) then (q + 1) * 2 ^ e else q * 2 ^ e

/-- The double nearest to an integer. -/
def roundDouble (i : Int) : Int :=
  if 0 ≤ i then (roundNat i.toNat : Int) else - (roundNat (-i).toNat : Int)

/-- The integer is the value of a double. -/
def isDouble (i : Int) : Bool := roundDouble i == i

/-- The product `a * b`. -/
def JsNum.mul : JsNum → JsNum → JsNum
  | .int a, .int b => .int (roundDouble (a * b))
  | _, _ => .nan

/-- The difference `a - b`. -/
def JsNum.sub : JsNum → JsNum → JsNum
  | .int a, .int b => .int (roundDouble (a - b))
  | _, _ => .nan

/-- Truthiness: `undefined`, `NaN`, `0` and the empty string are falsy. -/
def JsVal.truthy : JsVal → Bool
  | .undefined => false
  | .num .nan => false
  | .num (.int i) => i != 0
  | .str s => s != ""

/-- The conversion `Number(v)`. -/
def jsNumber (js : Js) : JsVal → JsNum
  | .undefined => .nan
  | .num n => n
  | .str s => js.toNumber s

/-- The expression `a || b`. -/
def jsOr (a b : JsVal) : JsVal := if a.truthy then a else b

/-- A default parameter value: it replaces `undefined` and nothing else. -/
def orDefault (v d : JsVal) : JsVal :=
  match v with
  | .undefined => d
  | _ => v

/-- The function `calculateOffset(recordsPerPage, pageNum)`. -/
def calculateOffset (js : Js) (recordsPerPage pageNum : JsVal) : JsNum :=
  (jsNumber js (jsOr recordsPerPage (.num (.int 0)))).mul
    (jsNumber js (jsOr pageNum (.num (.int 0))))

/-- The parameters `[LIMIT, OFFSET]` that `getFilesListOrThrowTheException(pool,
recordsPerPage = 10, pageNum = 1)` passes to its query. -/
def getFilesListQuery (js : Js) (recordsPerPage pageNum : JsVal) : JsNum × JsNum :=
  let recordsPerPage := orDefault recordsPerPage (.num (.int 10))
  let pageNum := orDefault pageNum (.num (.int 1))
  let offset := calculateOffset js recordsPerPage (.num ((jsNumber js pageNum).sub (.int 1)))
  (jsNumber js recordsPerPage, jsNumber js (.num offset))

/-- The order of `ORDER BY id ASC`. -/
def idLe (a b : FileRow) : Prop := a.id ≤ b.id

instance : DecidableRel idLe := fun a b => by unfold idLe; infer_instance

instance : IsTotal FileRow idLe := ⟨fun a b => Nat.le_total a.id b.id⟩

instance : IsTrans FileRow idLe := ⟨fun _ _ _ hab hbc => Nat.le_trans hab hbc⟩

/-- The query `SELECT * FROM files ORDER BY id ASC LIMIT ? OFFSET ?`. The store rejects a
statement whose limit or offset is not a non-negative integer. -/
def sqlSelectPage (rows : List FileRow) : JsNum → JsNum → Except Thrown (List FileRow)
  | .int limit, .int offset =>
    if 0 ≤ limit ∧ 0 ≤ offset then
      .ok (((rows.insertionSort idLe).drop offset.toNat).take limit.toNat)
    else .error (.error "You have an error in your SQL syntax")
  | _, _ => .error (.error "You have an error in your SQL syntax")

/-- The function `getFilesListOrThrowTheException(pool, recordsPerPage, pageNum)`. -/
def getFilesListOrThrowTheException (js : Js) (w : World) (recordsPerPage pageNum : JsVal) :
    Except Thrown (List FileRow) :=
  let q := getFilesListQuery js recordsPerPage pageNum
  sqlSelectPage w.rows q.1 q.2

/-- The value `v` is the natural number `n`, given as a number (a double) or as a non-empty
string whose numeric value is `n`. -/
def denotes (js : Js) (v : JsVal) (n : Nat) : Bool :=
  match v with
  | .undefined => false
  | .num m => m == .int n && isDouble n
  | .str s => s != "" && js.toNumber s == .int n && isDouble n

/-- The numeric value of a string of decimal digits, most significant digit first. -/
def digitsValue : List Char → Nat → Nat
  | [], acc => acc
  | c :: cs, acc => digitsValue cs (10 * acc + (c.toNat - 48))

/-- Built-ins for examples, on the strings the examples use: the empty string is 0, a
string of decimal digits is its value, any other string is not a number. -/
def demoJs : Js where
  toNumber := fun s => if s.toList.all Char.isDigit then .int (digitsValue s.toList 0) else .nan
  parseFloatIsNaN := fun s => !(s.toList.head?.any Char.isDigit)
  isFinite := fun s => s.toList.all Char.isDigit

/-- A row with a given id, for examples. -/
def demoRow (id : Nat) : FileRow :=
  { id := id, name := "f", extension := "", mimetype := "text/plain", size := 1,
    uploaded := 0, path := "upload/f" }

/-! ## Validation of the credentials, `src/model/validation.js`

`validator.isLength` measures the UTF-16 length less one for every surrogate pair and for
every variation selector (U+FE0E, U+FE0F), that is the number of code points that are no
variation selector (older releases of the library count the selectors as well);
`validator.matches(str, /\D/)` holds when some character is not one of the digits 0 to 9.
`validator.isEmail` is a parameter. An absent value (`undefined`) is `none`. -/

/-- The characters that `String.prototype.trim` removes: white space and line terminators. -/
def isJsWhiteSpace (c : Char) : Bool :=
  [0x9, 0xA, 0xB, 0xC, 0xD, 0x20, 0xA0, 0x1680, 0x2028, 0x2029, 0x202F, 0x205F, 0x3000,
    0xFEFF].contains c.toNat || (0x2000 ≤ c.toNat && c.toNat ≤ 0x200A)

/-- The method `str.trim()`. -/
def jsTrim (str : String) : String :=
  String.mk ((str.toList.dropWhile isJsWhiteSpace).reverse.dropWhile isJsWhiteSpace).reverse

/-- The variation selectors U+FE0E and U+FE0F. -/
def isVariationSelector (c : Char) : Bool := c.toNat == 0xFE0E || c.toNat == 0xFE0F

/-- The length that `validator.isLength` measures. -/
def validatorLength (str : String) : Nat :=
  (str.toList.filter (fun c => !isVariationSelector c)).length

/-- The call `validator.isLength(str, {min, max})`. -/
def isLength (str : String) (min max : Nat) : Bool :=
  decide (min ≤ validatorLength str) && decide (validatorLength str ≤ max)

/-- The call `validator.matches(str, /\D/)`. -/
def matchesNonDigit (str : String) : Bool := str.toList.any (fun c => !c.isDigit)

/-- The function `isValidUserID(id)`. -/
def isValidUserID (isEmail : String → Bool) (id : Option String) : Except Thrown Bool :=
  match id with
  | none => .error (.appError "\"id\" param is required" 405)
  | some id =>
    if id = "" then .error (.appError "\"id\" param is required" 405)
    else if !(!matchesNonDigit id && isLength id 7 15) && !isEmail id then
      .error (.appError "id expected as phone number or email" 405)
    else .ok true

/-- The function `isValidUserPassword(password)`. -/
def isValidUserPassword (password : Option String) : Except Thrown Bool :=
  let trimmed : String :=
    match password with
    | none => ""
    | some p => if p = "" then "" else jsTrim p
  if !isLength trimmed 4 10 then
    .error (.appError "password expected as string between 4 and 10 characters long" 405)
  else .ok true

/-- A stand-in for `validator.isEmail` in examples: exactly one `@`, with text on both sides
and a dot in the domain. -/
def demoIsEmail (str : String) : Bool :=
  match str.toList.splitOn '@' with
  | [loc, dom] => !loc.isEmpty && !dom.isEmpty && dom.contains '.'
  | _ => false

/-- The function `isValidFileID(id)`. -/
def isValidFileID (js : Js) (id : Option String) : Except Thrown Bool :=
  match id with
  | none => .error (.appError "\"id\" param is required" 405)
  | some id =>
    if id = "" then .error (.appError "\"id\" param is required" 405)
    else if js.parseFloatIsNaN id && !js.isFinite id then
      .error (.appError "expected id of number type" 405)
    else .ok true

/-! ## Users, `src/model/user.js`, and the credential check -/

/-- A row of the table `users`. -/
structure UserRow where
  id : String
  password : String
deriving DecidableEq, Repr

/-- The connection pool as the user queries see it: the table `users`, or a driver that
rejects every query with an error. -/
inductive Pool where
  | down (message : String)
  | up (users : List UserRow)
deriving DecidableEq, Repr

/-- The query `SELECT * FROM users WHERE id=?`. -/
def sqlSelectUserById (pool : Pool) (id : String) : Except Thrown (List UserRow) :=
  match pool with
  | .down message => .error (.error message)
  | .up users => .ok (users.filter (fun u => u.id == id))

/-- The function `getUserInfoByIdOrThrowTheException(pool, id)`. -/
def getUserInfoByIdOrThrowTheException (pool : Pool) (id : String) : Except Thrown UserRow :=
  match sqlSelectUserById pool id with
  | .error err => .error err
  | .ok [] => .error (.appError (String.join ["user with id ", id, " not found"]) 404)
  | .ok (row :: _) => .ok row

/-- The function `checkIDIsvacantOrThrowTheException(pool, id)`; its query ends in `LIMIT 1`. -/
def checkIDIsvacantOrThrowTheException (pool : Pool) (id : String) : Except Thrown Bool :=
  match sqlSelectUserById pool id with
  | .error err => .error err
  | .ok rows =>
    if (rows.take 1).length ≠ 0 then
      .error (.appError (String.join ["id ", id, " already used"]) 404)
    else .ok true

/-- The function `confirmUserPassword(reqPassword, storedPassword)`; `compare` is
`bcrypt.compare`: `.error m` when it rejects with an error of message `m`. -/
def confirmUserPassword (compare : String → String → Except String Bool)
    (reqPassword storedPassword : String) : Except Thrown Bool :=
  let vm : Bool × String :=
    match compare reqPassword storedPassword with
    | .ok v => (v, "")
    | .error m => (false, m)
  if !vm.1 || vm.2 != "" then .error (.appError (orElseStr vm.2 "password incorrect") 403)
  else .ok true

/-- The function `checkUserCredentials(pool, candidateID, candidatePassword)`. -/
def checkUserCredentials (compare : String → String → Except String Bool) (pool : Pool)
    (candidateID candidatePassword : String) : Except Thrown Bool :=
  let attempt : Except Thrown Bool :=
    match getUserInfoByIdOrThrowTheException pool candidateID with
    | .error err => .error err
    | .ok user => confirmUserPassword compare candidatePassword user.password
  match attempt with
  | .error _ => .error (.appError "incorrect id or password" 403)
  | .ok isValid => .ok isValid

/-! ## The other gates of the pipeline, `src/controllers/file.js` and `src/controllers/user.js` -/

/-- The middleware `checkID` with `req.params.id = id`: after the `catch` block execution
goes on to `next()`. -/
def checkID (js : Js) (id : Option String) (tokens : List Token) : StepResult :=
  match isValidFileID js id with
  | .error err => { sent := [handleError err], next := true, thrown := none, tokens := tokens }
  | .ok _ => { sent := [], next := true, thrown := none, tokens := tokens }

/-- The middleware `checkUserId` with `req.body.id = id`. -/
def checkUserId (isEmail : String → Bool) (id : Option String) (tokens : List Token) :
    StepResult :=
  match isValidUserID isEmail id with
  | .error err => { sent := [handleError err], next := false, thrown := none, tokens := tokens }
  | .ok _ => { sent := [], next := true, thrown := none, tokens := tokens }

/-- The middleware `checkVacantID` with `req.body.id = id`. -/
def checkVacantID (pool : Pool) (id : String) (tokens : List Token) : StepResult :=
  match checkIDIsvacantOrThrowTheException pool id with
  | .error err => { sent := [handleError err], next := false, thrown := none, tokens := tokens }
  | .ok _ => { sent := [], next := true, thrown := none, tokens := tokens }

/-- The middleware `checkUserPassword` with `req.body.password = password`. -/
def checkUserPassword (password : Option String) (tokens : List Token) : StepResult :=
  match isValidUserPassword password with
  | .error err => { sent := [handleError err], next := false, thrown := none, tokens := tokens }
  | .ok _ => { sent := [], next := true, thrown := none, tokens := tokens }

/-- A stand-in for `bcrypt.compare` in examples: the hash of `p` is `p` behind a `#`, and a
stored value that is no hash makes the comparison fail. -/
def demoCompare (reqPassword storedPassword : String) : Except String Bool :=
  match storedPassword.toList with
  | '#' :: rest => .ok (decide (rest = reqPassword.toList))
  | _ => .error "Illegal arguments"

/-! ## Paths and the download, `src/model/file.js`

The functions `path.join`, `path.dirname` and `path.basename` of Node, in their POSIX
form, on lists of characters. `normalizeString` works segment by segment, which is what
the character loop of Node computes. `dirname` stands for `__dirname`. -/

/-- The segments of a path: the pieces between the slashes. -/
def splitSlash : List Char → List (List Char)
  | [] => [[]]
  | c :: cs =>
    if c = '/' then [] :: splitSlash cs
    else
      match splitSlash cs with
      | [] => [[c]]
      | seg :: rest => (c :: seg) :: rest

/-- The segments joined by slashes. -/
def joinSlash : List (List Char) → List Char
  | [] => []
  | [seg] => seg
  | seg :: rest => seg ++ '/' :: joinSlash rest

/-- One segment of `normalizeString`: empty segments and `.` are skipped, `..` removes the
last kept segment unless there is none or it is `..` itself (then it is kept when
`allowAboveRoot` holds), any other segment is kept. -/
def normalizeStep (allowAboveRoot : Bool) (res : List (List Char)) (seg : List Char) :
    List (List Char) :=
  if seg = [] ∨ seg = ['.'] then res
  else if seg = ['.', '.'] then
    if res ≠ [] ∧ res.getLast? ≠ some ['.', '.'] then res.dropLast
    else if allowAboveRoot then res ++ [['.', '.']]
    else res
  else res ++ [seg]

/-- The function `normalizeString(path, allowAboveRoot, '/', isPosixPathSeparator)`. -/
def normalizeString (path : List Char) (allowAboveRoot : Bool) : List Char :=
  joinSlash ((splitSlash path).foldl (normalizeStep allowAboveRoot) [])

/-- The function `path.posix.normalize`. -/
def posixNormalize (path : List Char) : List Char :=
  if path = [] then ['.']
  else
    let isAbsolute : Bool := path.head? == some '/'
    let trailingSeparator : Bool := path.getLast? == some '/'
    let p := normalizeString path (!isAbsolute)
    if p = [] then
      if isAbsolute then ['/'] else if trailingSeparator then ['.', '/'] else ['.']
    else
      let q := if trailingSeparator then p ++ ['/'] else p
      if isAbsolute then '/' :: q else q

/-- The function `path.posix.join`. -/
def posixJoin (args : List (List Char)) : List Char :=
  match args.filter (fun a => a ≠ []) with
  | [] => ['.']
  | parts => posixNormalize (joinSlash parts)

/-- The function `path.posix.dirname`. -/
def posixDirname (path : List Char) : List Char :=
  match path with
  | [] => ['.']
  | c :: rest =>
    match (rest.reverse.dropWhile (fun x => x = '/')).dropWhile (fun x => x ≠ '/') with
    | [] => if c = '/' then ['/'] else ['.']
    | _ :: before => if c = '/' ∧ before = [] then ['/', '/'] else c :: before.reverse

/-- The function `path.posix.basename` without a suffix. -/
def posixBasename (path : List Char) : List Char :=
  ((path.reverse.dropWhile (fun x => x = '/')).takeWhile (fun x => x ≠ '/')).reverse

/-- The call `path.join(...)` on strings. -/
def pathJoin (args : List String) : String := String.mk (posixJoin (args.map String.toList))

/-- The call `path.dirname(p)` on strings. -/
def pathDirname (p : String) : String := String.mk (posixDirname p.toList)

/-- The call `path.basename(p)` on strings. -/
def pathBasename (p : String) : String := String.mk (posixBasename p.toList)

/-- The object `{root, path, filename}` returned by `sendFileOrThrowTheException`. -/
structure SendInfo where
  root : String
  path : String
  filename : String
deriving DecidableEq, Repr

/-- The function `sendFileOrThrowTheException(pool, id)`. -/
def sendFileOrThrowTheException (dirname : String) (w : World) (id : Nat) :
    Except Thrown SendInfo :=
  match getFileInfoByIdOrThrowTheException w id with
  | .error err => .error err
  | .ok file =>
    let filePath := pathJoin [dirname, "..", file.path]
    .ok { root := pathDirname filePath, path := pathBasename filePath, filename := file.name }

/-- The fixed root the stored paths are resolved against: `path.join(__dirname, '..')`. -/
def fixedRoot (dirname : String) : String := pathJoin [dirname, ".."]

/-- The directory `dir` is the directory `root` or lies below it. -/
def isAtOrBelow (root dir : String) : Bool :=
  dir == root || (root == "/" && dir.toList.head? == some '/') ||
    (root.toList ++ ['/']).isPrefixOf dir.toList

/-- A plain segment: not empty, without a slash, and neither `.` nor `..`. -/
def PlainSegment (seg : List Char) : Prop :=
  seg ≠ [] ∧ '/' ∉ seg ∧ seg ≠ ['.'] ∧ seg ≠ ['.', '.']

instance (seg : List Char) : Decidable (PlainSegment seg) := by
  unfold PlainSegment; infer_instance

/-- A state for examples whose only row stores a path that climbs out of the root. -/
def escapeWorld : World where
  rows := [{ id := 1, name := "passwd", extension := "", mimetype := "text/plain", size := 9,
             uploaded := 10, path := "../../etc/passwd" }]
  autoIncrement := 2
  files := []

/-! ## Helper lemmas on the token table -/

theorem find?_none_iff_forall {p : Token → Bool} {l : List Token} :
    l.find? p = none ↔ ∀ t ∈ l, p t = false := by
  induction l with
  | nil => simp
  | cons a l ih =>
    by_cases h : p a = true
    · simp [List.find?, h]
    · simp only [Bool.not_eq_true] at h
      simp [List.find?, h, ih]

theorem find?_some_mem {p : Token → Bool} {l : List Token} {t : Token}
    (h : l.find? p = some t) : t ∈ l ∧ p t = true := by
  induction l with
  | nil => simp at h
  | cons a l ih =>
    by_cases hp : p a = true
    · simp [List.find?, hp] at h
      subst h
      exact ⟨List.mem_cons_self _ _, hp⟩
    · simp only [Bool.not_eq_true] at hp
      simp [List.find?, hp] at h
      exact ⟨List.mem_cons_of_mem _ (ih h).1, (ih h).2⟩

theorem uniquePerKind_iff_nodup (l : List Token) :
    UniquePerKind l ↔ (l.map (fun t => (t.id, t.type))).Nodup := by
  unfold UniquePerKind List.Nodup
  rw [List.pairwise_map]
  apply Iff.intro <;> intro h <;> refine h.imp ?_ <;> intro a b hab
  · intro he; exact hab (by simpa using he)
  · intro he; exact hab (by simpa using he)

theorem setFirstValue_keys (p : Token → Bool) (v : String) (l : List Token) :
    (setFirstValue p v l).map (fun t => (t.id, t.type)) = l.map (fun t => (t.id, t.type)) := by
  induction l with
  | nil => rfl
  | cons a l ih =>
    unfold setFirstValue
    split
    · simp
    · simp [ih]

theorem uniquePerKind_setFirstValue (p : Token → Bool) (v : String) {l : List Token}
    (h : UniquePerKind l) : UniquePerKind (setFirstValue p v l) := by
  rw [uniquePerKind_iff_nodup] at h ⊢
  rw [setFirstValue_keys]; exact h

theorem uniquePerKind_push {l : List Token} (id type v : String) (h : UniquePerKind l)
    (hnone : l.find? (fun t => t.id == id && t.type == type) = none) :
    UniquePerKind (l ++ [{ id := id, type := type, value := v }]) := by
  unfold UniquePerKind at h ⊢
  rw [List.pairwise_append]
  refine ⟨h, List.pairwise_singleton _ _, ?_⟩
  intro a ha b hb
  rw [List.mem_singleton] at hb
  subst hb
  have := (find?_none_iff_forall.mp hnone) a ha
  intro hk
  simp [hk.1, hk.2] at this

theorem uniquePerKind_filter (q : Token → Bool) {l : List Token} (h : UniquePerKind l) :
    UniquePerKind (l.filter q) :=
  List.Pairwise.sublist (List.filter_sublist l) h

/-! ## C1: the uniqueness invariant is preserved -/

/-- C1. If the token table holds at most one entry per (subject id, kind) pair, then so does
the table left by `generateAccessToken(id)`, by `generateRefreshToken(id)` and by
`logoutUser`, for every subject id and every presented bearer token. -/
theorem C1_unique_per_kind_preserved (env : Env) (now : Nat) (id bearer : String)
    (tokens : List Token) (h : UniquePerKind tokens) :
    UniquePerKind (generateAccessToken env now id tokens).2 ∧
    UniquePerKind (generateRefreshToken env now id tokens).2 ∧
    UniquePerKind (logoutUser bearer tokens).tokens := by
  refine ⟨?_, ?_, ?_⟩
  · unfold generateAccessToken
    cases hf : tokens.find? (fun t => t.id == id && t.type == "bearer") with
    | none => exact uniquePerKind_push id "bearer" _ h hf
    | some item => exact uniquePerKind_setFirstValue _ _ h
  · unfold generateRefreshToken
    cases hf : tokens.find? (fun t => t.id == id && t.type == "refresh") with
    | none => exact uniquePerKind_push id "refresh" _ h hf
    | some item => exact uniquePerKind_setFirstValue _ _ h
  · unfold logoutUser
    cases hf : tokens.find? (fun t => t.value == bearer && t.type == "bearer") with
    | none =>
      cases tokens with
      | nil => exact h
      | cons a l => exact h
    | some item => exact uniquePerKind_filter _ h

/-- C1, at a table with both kinds for one subject and a bearer entry for another. -/
theorem C1_unique_per_kind_preserved_witness :
    UniquePerKind [⟨"u1", "refresh", "r1"⟩, ⟨"u1", "bearer", "b1"⟩, ⟨"u2", "bearer", "b2"⟩] ∧
    UniquePerKind (generateAccessToken demoEnv 7 "u1"
      [⟨"u1", "refresh", "r1"⟩, ⟨"u1", "bearer", "b1"⟩, ⟨"u2", "bearer", "b2"⟩]).2 ∧
    UniquePerKind (generateRefreshToken demoEnv 7 "u1"
      [⟨"u1", "refresh", "r1"⟩, ⟨"u1", "bearer", "b1"⟩, ⟨"u2", "bearer", "b2"⟩]).2 ∧
    UniquePerKind (logoutUser "b1"
      [⟨"u1", "refresh", "r1"⟩, ⟨"u1", "bearer", "b1"⟩, ⟨"u2", "bearer", "b2"⟩]).tokens :=
  ⟨by decide, C1_unique_per_kind_preserved demoEnv 7 "u1" "b1" _ (by decide)⟩

/-! ## C2: when the validators return `true` -/

theorem find?_value_type_none_iff (type token : String) (tokens : List Token) :
    tokens.find? (fun t => t.value == token && t.type == type) = none ↔
      ¬ HasEntry type token tokens := by
  rw [find?_none_iff_forall]
  unfold HasEntry
  constructor
  · rintro h ⟨t, ht, h1, h2⟩
    have := h t ht
    simp [h1, h2] at this
  · intro h t ht
    by_contra hc
    simp only [Bool.not_eq_false, Bool.and_eq_true, beq_iff_eq] at hc
    exact h ⟨t, ht, hc.2, hc.1⟩

theorem isValidBearerToken_ok_iff (env : Env) (now : Nat) (token : String) (tokens : List Token) :
    (isValidBearerToken env now token tokens).1 = .ok true ↔
      (HasEntry "bearer" token tokens ∧ env.isJWT token = true ∧
        verifies env now token env.accessSecret = true) := by
  unfold isValidBearerToken verifies
  cases hf : tokens.find? (fun t => t.value == token && t.type == "bearer") with
  | none =>
    have := (find?_value_type_none_iff "bearer" token tokens).mp hf
    simp [this]
  | some item =>
    have hne : ¬ tokens.find? (fun t => t.value == token && t.type == "bearer") = none := by
      rw [hf]; simp
    have hhas : HasEntry "bearer" token tokens := by
      by_contra hc
      exact hne ((find?_value_type_none_iff "bearer" token tokens).mpr hc)
    cases hj : env.isJWT token <;> simp [hhas]
    cases hv : env.jwtVerify now token env.accessSecret with
    | error m => simp
    | ok v => cases v <;> simp

theorem isValidRefreshToken_ok_iff (env : Env) (now : Nat) (token : String) (tokens : List Token) :
    (isValidRefreshToken env now token tokens).1 = .ok true ↔
      (HasEntry "refresh" token tokens ∧ env.isJWT token = true ∧
        verifies env now token env.refreshSecret = true) := by
  unfold isValidRefreshToken verifies
  cases hf : tokens.find? (fun t => t.value == token && t.type == "refresh") with
  | none =>
    have := (find?_value_type_none_iff "refresh" token tokens).mp hf
    simp [this]
  | some item =>
    have hne : ¬ tokens.find? (fun t => t.value == token && t.type == "refresh") = none := by
      rw [hf]; simp
    have hhas : HasEntry "refresh" token tokens := by
      by_contra hc
      exact hne ((find?_value_type_none_iff "refresh" token tokens).mpr hc)
    cases hj : env.isJWT token <;> simp [hhas]
    cases hv : env.jwtVerify now token env.refreshSecret with
    | error m => simp
    | ok v => cases v <;> simp

theorem isValidBearerToken_ok_or_error (env : Env) (now : Nat) (token : String)
    (tokens : List Token) :
    (isValidBearerToken env now token tokens).1 = .ok true ∨
      ∃ e, (isValidBearerToken env now token tokens).1 = .error e := by
  unfold isValidBearerToken
  cases tokens.find? (fun t => t.value == token && t.type == "bearer") with
  | none => exact Or.inr ⟨_, rfl⟩
  | some item =>
    dsimp only
    split
    · exact Or.inr ⟨_, rfl⟩
    · split
      · exact Or.inr ⟨_, rfl⟩
      · exact Or.inl rfl

theorem isValidRefreshToken_ok_or_error (env : Env) (now : Nat) (token : String)
    (tokens : List Token) :
    (isValidRefreshToken env now token tokens).1 = .ok true ∨
      ∃ e, (isValidRefreshToken env now token tokens).1 = .error e := by
  unfold isValidRefreshToken
  cases tokens.find? (fun t => t.value == token && t.type == "refresh") with
  | none => exact Or.inr ⟨_, rfl⟩
  | some item =>
    dsimp only
    split
    · exact Or.inr ⟨_, rfl⟩
    · split
      · exact Or.inr ⟨_, rfl⟩
      · exact Or.inl rfl

/-- C2. `isValidBearerToken` (resp. `isValidRefreshToken`) returns `true` exactly when the
table has an entry of kind `bearer` (resp. `refresh`) whose value is the token, the token is
a well-formed JWT, and verification against the access (resp. refresh) secret succeeds; in
every other case it throws; it never returns `false`; a token stored under the other kind
only is rejected. -/
theorem C2_validators_true_iff (env : Env) (now : Nat) (token : String) (tokens : List Token) :
    ((isValidBearerToken env now token tokens).1 = .ok true ↔
      (HasEntry "bearer" token tokens ∧ env.isJWT token = true ∧
        verifies env now token env.accessSecret = true)) ∧
    ((isValidRefreshToken env now token tokens).1 = .ok true ↔
      (HasEntry "refresh" token tokens ∧ env.isJWT token = true ∧
        verifies env now token env.refreshSecret = true)) ∧
    (¬ (HasEntry "bearer" token tokens ∧ env.isJWT token = true ∧
        verifies env now token env.accessSecret = true) →
      ∃ e, (isValidBearerToken env now token tokens).1 = .error e) ∧
    (¬ (HasEntry "refresh" token tokens ∧ env.isJWT token = true ∧
        verifies env now token env.refreshSecret = true) →
      ∃ e, (isValidRefreshToken env now token tokens).1 = .error e) ∧
    (isValidBearerToken env now token tokens).1 ≠ .ok false ∧
    (isValidRefreshToken env now token tokens).1 ≠ .ok false ∧
    (¬ HasEntry "bearer" token tokens →
      ∃ e, (isValidBearerToken env now token tokens).1 = .error e) ∧
    (¬ HasEntry "refresh" token tokens →
      ∃ e, (isValidRefreshToken env now token tokens).1 = .error e) := by
  have hb := isValidBearerToken_ok_iff env now token tokens
  have hr := isValidRefreshToken_ok_iff env now token tokens
  have hb2 := isValidBearerToken_ok_or_error env now token tokens
  have hr2 := isValidRefreshToken_ok_or_error env now token tokens
  refine ⟨hb, hr, ?_, ?_, ?_, ?_, ?_, ?_⟩
  · intro h
    rcases hb2 with h1 | h1
    · exact absurd (hb.mp h1) h
    · exact h1
  · intro h
    rcases hr2 with h1 | h1
    · exact absurd (hr.mp h1) h
    · exact h1
  · rcases hb2 with h1 | ⟨e, h1⟩ <;> rw [h1] <;> simp
  · rcases hr2 with h1 | ⟨e, h1⟩ <;> rw [h1] <;> simp
  · intro h
    rcases hb2 with h1 | h1
    · exact absurd (hb.mp h1).1 h
    · exact h1
  · intro h
    rcases hr2 with h1 | h1
    · exact absurd (hr.mp h1).1 h
    · exact h1

/-! ## C3, C4: what happens when verification fails -/

theorem find?_value_type_some (type token : String) (tokens : List Token)
    (h : HasEntry type token tokens) :
    ∃ item, tokens.find? (fun t => t.value == token && t.type == type) = some item := by
  cases hf : tokens.find? (fun t => t.value == token && t.type == type) with
  | none => exact absurd h ((find?_value_type_none_iff type token tokens).mp hf)
  | some item => exact ⟨item, rfl⟩

theorem isValidBearerToken_of_verification_failure (env : Env) (now : Nat) (token : String)
    (tokens : List Token) (hentry : HasEntry "bearer" token tokens)
    (hjwt : env.isJWT token = true) (hfail : verifies env now token env.accessSecret = false) :
    isValidBearerToken env now token tokens =
      (.error (.referenceError "req is not defined"), tokens) := by
  obtain ⟨item, hf⟩ := find?_value_type_some "bearer" token tokens hentry
  unfold isValidBearerToken
  unfold verifies at hfail
  rw [hf]
  cases hv : env.jwtVerify now token env.accessSecret with
  | error m => simp [hjwt]
  | ok v =>
    cases v
    · simp [hjwt]
    · rw [hv] at hfail; simp at hfail

theorem isValidRefreshToken_of_verification_failure (env : Env) (now : Nat) (token : String)
    (tokens : List Token) (hentry : HasEntry "refresh" token tokens)
    (hjwt : env.isJWT token = true) (hfail : verifies env now token env.refreshSecret = false) :
    isValidRefreshToken env now token tokens =
      (.error (.appError
        (orElseStr (match env.jwtVerify now token env.refreshSecret with
          | .ok _ => "" | .error m => m) "token incorrect") 403), tokens) := by
  obtain ⟨item, hf⟩ := find?_value_type_some "refresh" token tokens hentry
  unfold isValidRefreshToken
  unfold verifies at hfail
  rw [hf]
  cases hv : env.jwtVerify now token env.refreshSecret with
  | error m => simp [hjwt]
  | ok v =>
    cases v
    · simp [hjwt]
    · rw [hv] at hfail; simp at hfail

/-- C3 (what the code does). For an access token that is in the table as a `bearer` entry, is
a well-formed JWT and fails verification, `isValidBearerToken` throws the runtime's
`ReferenceError` "req is not defined", not an `AppError` with statusCode 403: the thrown
value carries no statusCode and no status, and `verifyAccessToken` answers 500 "error". -/
theorem C3_bearer_failure_is_reference_error (env : Env) (now : Nat) (token : String)
    (tokens : List Token) (hentry : HasEntry "bearer" token tokens)
    (hjwt : env.isJWT token = true) (hfail : verifies env now token env.accessSecret = false) :
    (isValidBearerToken env now token tokens).1 = .error (.referenceError "req is not defined") ∧
    (∀ m, (isValidBearerToken env now token tokens).1 ≠ .error (.appError m 403)) ∧
    (verifyAccessToken env now token tokens).sent =
      [.failure 500 "error" "req is not defined"] := by
  have h := isValidBearerToken_of_verification_failure env now token tokens hentry hjwt hfail
  refine ⟨by rw [h], ?_, ?_⟩
  · intro m; rw [h]; simp
  · unfold verifyAccessToken; rw [h]; rfl

/-- C3, at a table holding the expired access token `x.a.b` of subject `u`. -/
theorem C3_bearer_failure_is_reference_error_witness :
    HasEntry "bearer" "x.a.b" [⟨"u", "bearer", "x.a.b"⟩] ∧
    demoEnv.isJWT "x.a.b" = true ∧
    verifies demoEnv 0 "x.a.b" demoEnv.accessSecret = false ∧
    (isValidBearerToken demoEnv 0 "x.a.b" [⟨"u", "bearer", "x.a.b"⟩]).1 =
      .error (.referenceError "req is not defined") ∧
    (∀ m, (isValidBearerToken demoEnv 0 "x.a.b" [⟨"u", "bearer", "x.a.b"⟩]).1 ≠
      .error (.appError m 403)) ∧
    (verifyAccessToken demoEnv 0 "x.a.b" [⟨"u", "bearer", "x.a.b"⟩]).sent =
      [.failure 500 "error" "req is not defined"] :=
  ⟨by decide, by decide, by decide,
    C3_bearer_failure_is_reference_error demoEnv 0 "x.a.b" [⟨"u", "bearer", "x.a.b"⟩]
      (by decide) (by decide) (by decide)⟩

/-- C4 (what the code does). When a token of the table fails verification, the shared table
is left as it was by `isValidBearerToken` / `verifyAccessToken` and by
`isValidRefreshToken` / `verifyRefreshToken`: the entry holding the token is still there
after the error. -/
theorem C4_failed_verification_keeps_entry (env : Env) (now : Nat) (bearer refresh : String)
    (tokens : List Token)
    (hb : HasEntry "bearer" bearer tokens) (hbj : env.isJWT bearer = true)
    (hbf : verifies env now bearer env.accessSecret = false)
    (hr : HasEntry "refresh" refresh tokens) (hrj : env.isJWT refresh = true)
    (hrf : verifies env now refresh env.refreshSecret = false) :
    ((isValidBearerToken env now bearer tokens).2 = tokens ∧
      (verifyAccessToken env now bearer tokens).tokens = tokens ∧
      ∃ t ∈ (verifyAccessToken env now bearer tokens).tokens, t.value = bearer) ∧
    ((isValidRefreshToken env now refresh tokens).2 = tokens ∧
      (verifyRefreshToken env now refresh tokens).tokens = tokens ∧
      ∃ t ∈ (verifyRefreshToken env now refresh tokens).tokens, t.value = refresh) := by
  have h1 := isValidBearerToken_of_verification_failure env now bearer tokens hb hbj hbf
  have h2 := isValidRefreshToken_of_verification_failure env now refresh tokens hr hrj hrf
  have e1 : (verifyAccessToken env now bearer tokens).tokens = tokens := by
    unfold verifyAccessToken; rw [h1]
  have e2 : (verifyRefreshToken env now refresh tokens).tokens = tokens := by
    unfold verifyRefreshToken; rw [h2]
  obtain ⟨t, ht, _, htv⟩ := hb
  obtain ⟨u, hu, _, huv⟩ := hr
  refine ⟨⟨by rw [h1], e1, ?_⟩, ⟨by rw [h2], e2, ?_⟩⟩
  · rw [e1]; exact ⟨t, ht, htv⟩
  · rw [e2]; exact ⟨u, hu, huv⟩

/-- C4, at a table holding the expired tokens `x.a.b` (access) and `x.c.d` (refresh). -/
theorem C4_failed_verification_keeps_entry_witness :
    HasEntry "bearer" "x.a.b" [⟨"u", "bearer", "x.a.b"⟩, ⟨"u", "refresh", "x.c.d"⟩] ∧
    verifies demoEnv 0 "x.a.b" demoEnv.accessSecret = false ∧
    HasEntry "refresh" "x.c.d" [⟨"u", "bearer", "x.a.b"⟩, ⟨"u", "refresh", "x.c.d"⟩] ∧
    verifies demoEnv 0 "x.c.d" demoEnv.refreshSecret = false ∧
    (verifyAccessToken demoEnv 0 "x.a.b"
      [⟨"u", "bearer", "x.a.b"⟩, ⟨"u", "refresh", "x.c.d"⟩]).tokens =
        [⟨"u", "bearer", "x.a.b"⟩, ⟨"u", "refresh", "x.c.d"⟩] ∧
    (verifyRefreshToken demoEnv 0 "x.c.d"
      [⟨"u", "bearer", "x.a.b"⟩, ⟨"u", "refresh", "x.c.d"⟩]).tokens =
        [⟨"u", "bearer", "x.a.b"⟩, ⟨"u", "refresh", "x.c.d"⟩] :=
  have h := C4_failed_verification_keeps_entry demoEnv 0 "x.a.b" "x.c.d"
    [⟨"u", "bearer", "x.a.b"⟩, ⟨"u", "refresh", "x.c.d"⟩]
    (by decide) (by decide) (by decide) (by decide) (by decide) (by decide)
  ⟨by decide, by decide, by decide, by decide, h.1.2.1, h.2.2.1⟩

/-! ## C5: helper lemmas on logout -/

theorem eq_of_same_kind {l : List Token} (h : UniquePerKind l) {a b : Token}
    (ha : a ∈ l) (hb : b ∈ l) (hid : a.id = b.id) (hty : a.type = b.type) : a = b := by
  rw [uniquePerKind_iff_nodup] at h
  exact List.inj_on_of_nodup_map h ha hb (by simp [hid, hty])

theorem logoutUser_of_find_none (bearer : String) (tokens : List Token)
    (h : tokens.find? (fun t => t.value == bearer && t.type == "bearer") = none) :
    (logoutUser bearer tokens).sent = [.failure 403 "fail" "incorrect bearer token"] ∧
      (logoutUser bearer tokens).tokens = tokens := by
  unfold logoutUser
  rw [h]
  cases tokens with
  | nil => exact ⟨rfl, rfl⟩
  | cons a l => exact ⟨rfl, rfl⟩

theorem reachable_uniquePerKind (env : Env) (tokens : List Token) (h : Reachable env tokens) :
    UniquePerKind tokens := by
  induction h with
  | init => exact List.Pairwise.nil
  | access now id tokens _ ih =>
    unfold generateAccessToken
    cases hf : tokens.find? (fun t => t.id == id && t.type == "bearer") with
    | none => exact uniquePerKind_push id "bearer" _ ih hf
    | some item => exact uniquePerKind_setFirstValue _ _ ih
  | refresh now id tokens _ ih =>
    unfold generateRefreshToken
    cases hf : tokens.find? (fun t => t.id == id && t.type == "refresh") with
    | none => exact uniquePerKind_push id "refresh" _ ih hf
    | some item => exact uniquePerKind_setFirstValue _ _ ih
  | logout bearer tokens _ ih =>
    unfold logoutUser
    cases hf : tokens.find? (fun t => t.value == bearer && t.type == "bearer") with
    | none =>
      cases tokens with
      | nil => exact ih
      | cons a l => exact ih
    | some item => exact uniquePerKind_filter _ ih

theorem find?_none_of_no_value (bearer type : String) (tokens : List Token)
    (h : ∀ t ∈ tokens, t.value ≠ bearer) :
    tokens.find? (fun t => t.value == bearer && t.type == type) = none := by
  rw [find?_none_iff_forall]
  intro t ht
  simp [h t ht]

/-! ## C6: the refresh route -/

theorem generateAccessToken_fst (env : Env) (now : Nat) (id : String) (tokens : List Token) :
    (generateAccessToken env now id tokens).1 = env.jwtSign now id env.accessSecret "10m" := by
  unfold generateAccessToken
  cases tokens.find? (fun t => t.id == id && t.type == "bearer") <;> rfl

theorem mem_setFirstValue_of_find (p : Token → Bool) (v : String) (l : List Token) (a : Token)
    (h : l.find? p = some a) : { a with value := v } ∈ setFirstValue p v l := by
  induction l with
  | nil => simp at h
  | cons b l ih =>
    unfold setFirstValue
    by_cases hp : p b = true
    · simp [List.find?, hp] at h
      subst h
      simp [hp]
    · simp only [Bool.not_eq_true] at hp
      simp [List.find?, hp] at h
      simp [hp, ih h]

theorem generateAccessToken_stores (env : Env) (now : Nat) (id : String) (tokens : List Token) :
    ({ id := id, type := "bearer", value := (generateAccessToken env now id tokens).1 } : Token) ∈
      (generateAccessToken env now id tokens).2 := by
  unfold generateAccessToken
  cases hf : tokens.find? (fun t => t.id == id && t.type == "bearer") with
  | none => simp
  | some a =>
    have ha := (find?_some_mem hf).2
    simp only [Bool.and_eq_true, beq_iff_eq] at ha
    have := mem_setFirstValue_of_find _ (env.jwtSign now id env.accessSecret "10m") tokens a hf
    have e : ({ a with value := env.jwtSign now id env.accessSecret "10m" } : Token) =
        { id := id, type := "bearer", value := env.jwtSign now id env.accessSecret "10m" } := by
      cases a; simp at ha; simp [ha.1, ha.2]
    rw [e] at this
    exact this

theorem isValidRefreshToken_snd (env : Env) (now : Nat) (token : String) (tokens : List Token) :
    (isValidRefreshToken env now token tokens).2 = tokens := by
  unfold isValidRefreshToken
  cases tokens.find? (fun t => t.value == token && t.type == "refresh") with
  | none => rfl
  | some item =>
    dsimp only
    split
    · rfl
    · split <;> rfl

theorem newTokenRoute_of_valid (env : Env) (now : Nat) (refresh : String) (tokens : List Token)
    (item : Token)
    (hfind : tokens.find? (fun t => t.value == refresh && t.type == "refresh") = some item)
    (hok : (isValidRefreshToken env now refresh tokens).1 = .ok true) :
    newTokenRoute env now refresh tokens =
      { sent := [.success 200 [("bearer", env.jwtSign now item.id env.accessSecret "10m")]],
        next := false, thrown := none,
        tokens := (generateAccessToken env now item.id tokens).2 } := by
  have h2 := isValidRefreshToken_snd env now refresh tokens
  have hv : verifyRefreshToken env now refresh tokens =
      { sent := [], next := true, thrown := none, tokens := tokens } := by
    unfold verifyRefreshToken
    rcases hp : isValidRefreshToken env now refresh tokens with ⟨r, t⟩
    rw [hp] at hok h2
    simp only at hok h2
    subst hok h2
    rfl
  unfold newTokenRoute andThen
  rw [hv]
  simp only [if_true, List.nil_append]
  unfold refreshAccessToken
  rw [hfind]
  simp [generateAccessToken_fst, handle200]

theorem newTokenRoute_of_invalid (env : Env) (now : Nat) (refresh : String) (tokens : List Token)
    (e : Thrown) (herr : (isValidRefreshToken env now refresh tokens).1 = .error e) :
    newTokenRoute env now refresh tokens =
      { sent := [handleError e], next := false, thrown := none, tokens := tokens } := by
  have h2 := isValidRefreshToken_snd env now refresh tokens
  unfold newTokenRoute andThen verifyRefreshToken
  rcases hp : isValidRefreshToken env now refresh tokens with ⟨r, t⟩
  rw [hp] at herr h2
  simp only at herr h2
  subst herr h2
  rfl

/-- C6 (amended). Through `POST /signin/new_token` the refresh operation answers 200 exactly
when the table has a `refresh` entry whose value is the presented token, the token is a
well-formed JWT, and it passes verification against the refresh secret. In that case, with
`item` the entry the lookup finds, the answer carries the access token signed for `item.id`,
that token is stored as a `bearer` entry of `item.id`, and it passes `isValidBearerToken`
on the resulting table whenever it is well formed and verifies against the access secret. -/
theorem C6_refresh_route (env : Env) (now later : Nat) (refresh : String)
    (tokens : List Token) :
    ((∃ data, (newTokenRoute env now refresh tokens).sent = [.success 200 data]) ↔
      (HasEntry "refresh" refresh tokens ∧ env.isJWT refresh = true ∧
        verifies env now refresh env.refreshSecret = true)) ∧
    (∀ item, tokens.find? (fun t => t.value == refresh && t.type == "refresh") = some item →
      env.isJWT refresh = true → verifies env now refresh env.refreshSecret = true →
      (newTokenRoute env now refresh tokens).sent =
        [.success 200 [("bearer", env.jwtSign now item.id env.accessSecret "10m")]] ∧
      ({ id := item.id, type := "bearer",
         value := env.jwtSign now item.id env.accessSecret "10m" } : Token) ∈
        (newTokenRoute env now refresh tokens).tokens ∧
      (env.isJWT (env.jwtSign now item.id env.accessSecret "10m") = true →
        verifies env later (env.jwtSign now item.id env.accessSecret "10m")
          env.accessSecret = true →
        (isValidBearerToken env later (env.jwtSign now item.id env.accessSecret "10m")
          (newTokenRoute env now refresh tokens).tokens).1 = .ok true)) := by
  have hiff := isValidRefreshToken_ok_iff env now refresh tokens
  constructor
  · constructor
    · rintro ⟨data, hd⟩
      rcases isValidRefreshToken_ok_or_error env now refresh tokens with hok | ⟨e, herr⟩
      · exact hiff.mp hok
      · rw [newTokenRoute_of_invalid env now refresh tokens e herr] at hd
        simp [handleError] at hd
    · intro h
      obtain ⟨item, hfind⟩ := find?_value_type_some "refresh" refresh tokens h.1
      rw [newTokenRoute_of_valid env now refresh tokens item hfind (hiff.mpr h)]
      exact ⟨_, rfl⟩
  · intro item hfind hjwt hver
    have hhas : HasEntry "refresh" refresh tokens := by
      by_contra hc
      rw [(find?_value_type_none_iff "refresh" refresh tokens).mpr hc] at hfind
      simp at hfind
    rw [newTokenRoute_of_valid env now refresh tokens item hfind (hiff.mpr ⟨hhas, hjwt, hver⟩)]
    have hst := generateAccessToken_stores env now item.id tokens
    rw [generateAccessToken_fst] at hst
    refine ⟨rfl, hst, ?_⟩
    intro hj hv
    exact (isValidBearerToken_ok_iff env later _ _).mpr ⟨⟨_, hst, rfl, rfl⟩, hj, hv⟩

/-- C6 (as stated) fails for a refresh token that is in the table but does not verify: the
table has the `refresh` entry `x.c.d`, and the route answers 403 with the verifier's
message instead of a new access token. -/
theorem C6_counterexample :
    HasEntry "refresh" "x.c.d" [⟨"u", "refresh", "x.c.d"⟩] ∧
    (newTokenRoute demoEnv 0 "x.c.d" [⟨"u", "refresh", "x.c.d"⟩]).sent =
      [.failure 403 "fail" "jwt expired"] ∧
    ¬ ((∃ data, (newTokenRoute demoEnv 0 "x.c.d" [⟨"u", "refresh", "x.c.d"⟩]).sent =
        [.success 200 data]) ↔
      HasEntry "refresh" "x.c.d" [⟨"u", "refresh", "x.c.d"⟩]) := by
  have h : (newTokenRoute demoEnv 0 "x.c.d" [⟨"u", "refresh", "x.c.d"⟩]).sent =
      [.failure 403 "fail" "jwt expired"] := by decide
  refine ⟨by decide, h, ?_⟩
  intro hiff
  obtain ⟨data, hd⟩ := hiff.mpr (by decide)
  rw [h] at hd
  simp at hd

/-- C6 (amended), at the table of subject `u` holding the refresh token `a.b.c`. -/
theorem C6_refresh_route_witness :
    (newTokenRoute demoEnv 0 "a.b.c" [⟨"u", "refresh", "a.b.c"⟩]).sent =
      [.success 200 [("bearer", "u.010m.A")]] ∧
    (⟨"u", "bearer", "u.010m.A"⟩ : Token) ∈
      (newTokenRoute demoEnv 0 "a.b.c" [⟨"u", "refresh", "a.b.c"⟩]).tokens ∧
    (isValidBearerToken demoEnv 9 "u.010m.A"
      (newTokenRoute demoEnv 0 "a.b.c" [⟨"u", "refresh", "a.b.c"⟩]).tokens).1 = .ok true :=
  have h := (C6_refresh_route demoEnv 0 9 "a.b.c" [⟨"u", "refresh", "a.b.c"⟩]).2
    ⟨"u", "refresh", "a.b.c"⟩ (by decide) (by decide) (by decide)
  ⟨h.1, h.2.1, h.2.2 (by decide) (by decide)⟩

/-! ## C7: issuing an access token twice -/

theorem uniquePerKind_generateAccessToken (env : Env) (now : Nat) (id : String)
    {tokens : List Token} (h : UniquePerKind tokens) :
    UniquePerKind (generateAccessToken env now id tokens).2 := by
  unfold generateAccessToken
  cases hf : tokens.find? (fun t => t.id == id && t.type == "bearer") with
  | none => exact uniquePerKind_push id "bearer" _ h hf
  | some item => exact uniquePerKind_setFirstValue _ _ h

theorem entriesOf_eq_nil_of_find_none (id type : String) (l : List Token)
    (h : l.find? (fun t => t.id == id && t.type == type) = none) : entriesOf id type l = [] := by
  unfold entriesOf
  rw [List.filter_eq_nil_iff]
  intro t ht
  have := (find?_none_iff_forall.mp h) t ht
  simp [this]

theorem entriesOf_setFirstValue (id type v : String) (l : List Token) (h : UniquePerKind l)
    (a : Token) (hf : l.find? (fun t => t.id == id && t.type == type) = some a) :
    entriesOf id type (setFirstValue (fun t => t.id == id && t.type == type) v l) =
      [{ id := id, type := type, value := v }] := by
  induction l with
  | nil => simp at hf
  | cons b l ih =>
    unfold UniquePerKind at h
    rw [List.pairwise_cons] at h
    unfold setFirstValue
    by_cases hp : (b.id == id && b.type == type) = true
    · have hb : b.id = id ∧ b.type = type := by simpa using hp
      have hrest : entriesOf id type l = [] := by
        unfold entriesOf
        rw [List.filter_eq_nil_iff]
        intro t ht hpt
        have ht2 : t.id = id ∧ t.type = type := by simpa using hpt
        exact h.1 t ht ⟨hb.1.trans ht2.1.symm, hb.2.trans ht2.2.symm⟩
      unfold entriesOf at hrest ⊢
      simp only [hp, if_true]
      rw [List.filter_cons]
      simp only [hb.1, hb.2, beq_self_eq_true, Bool.and_self, if_true, hrest]
    · simp only [Bool.not_eq_true] at hp
      have hf2 : l.find? (fun t => t.id == id && t.type == type) = some a := by
        simpa [List.find?, hp] using hf
      have := ih h.2 hf2
      unfold entriesOf at this ⊢
      simp only [hp, Bool.false_eq_true, if_false]
      rw [List.filter_cons]
      simp only [hp, Bool.false_eq_true, if_false]
      exact this

theorem entriesOf_generateAccessToken (env : Env) (now : Nat) (id : String)
    (tokens : List Token) (h : UniquePerKind tokens) :
    entriesOf id "bearer" (generateAccessToken env now id tokens).2 =
      [{ id := id, type := "bearer", value := (generateAccessToken env now id tokens).1 }] := by
  unfold generateAccessToken
  cases hf : tokens.find? (fun t => t.id == id && t.type == "bearer") with
  | none =>
    have := entriesOf_eq_nil_of_find_none id "bearer" tokens hf
    unfold entriesOf at this ⊢
    simp [List.filter_append, this]
  | some a => exact entriesOf_setFirstValue id "bearer" _ tokens h a hf

theorem mem_setFirstValue (p : Token → Bool) (v : String) (l : List Token) (t : Token)
    (h : t ∈ setFirstValue p v l) : t ∈ l ∨ ∃ a ∈ l, p a = true ∧ t = { a with value := v } := by
  induction l with
  | nil => simp [setFirstValue] at h
  | cons b l ih =>
    unfold setFirstValue at h
    by_cases hp : p b = true
    · simp only [hp, if_true, List.mem_cons] at h
      rcases h with h | h
      · exact Or.inr ⟨b, List.mem_cons_self _ _, hp, h⟩
      · exact Or.inl (List.mem_cons_of_mem _ h)
    · simp only [hp, Bool.false_eq_true, if_false, List.mem_cons] at h
      rcases h with h | h
      · exact Or.inl (h ▸ List.mem_cons_self _ _)
      · rcases ih h with h1 | ⟨a, ha, hpa, hta⟩
        · exact Or.inl (List.mem_cons_of_mem _ h1)
        · exact Or.inr ⟨a, List.mem_cons_of_mem _ ha, hpa, hta⟩

theorem mem_generateAccessToken (env : Env) (now : Nat) (id : String) (tokens : List Token)
    (t : Token) (h : t ∈ (generateAccessToken env now id tokens).2) :
    t ∈ tokens ∨ (t.id = id ∧ t.type = "bearer") := by
  unfold generateAccessToken at h
  cases hf : tokens.find? (fun t => t.id == id && t.type == "bearer") with
  | none =>
    rw [hf] at h
    simp only [List.mem_append, List.mem_singleton] at h
    rcases h with h | h
    · exact Or.inl h
    · exact Or.inr (by rw [h]; exact ⟨rfl, rfl⟩)
  | some a =>
    rw [hf] at h
    rcases mem_setFirstValue _ _ _ _ h with h1 | ⟨b, _, hpb, htb⟩
    · exact Or.inl h1
    · have hb : b.id = id ∧ b.type = "bearer" := by simpa using hpb
      exact Or.inr (by rw [htb]; exact hb)

/-- Two calls of `generateAccessToken` for one subject within the same second return the
same token, whatever the signing function is. -/
theorem generateAccessToken_same_second (env : Env) (now : Nat) (S : String)
    (tokens : List Token) :
    (generateAccessToken env now S (generateAccessToken env now S tokens).2).1 =
      (generateAccessToken env now S tokens).1 := by
  rw [generateAccessToken_fst, generateAccessToken_fst]

theorem mem_generateRefreshToken (env : Env) (now : Nat) (id : String) (tokens : List Token)
    (t : Token) (h : t ∈ (generateRefreshToken env now id tokens).2) :
    t ∈ tokens ∨ (t.id = id ∧ t.type = "refresh") := by
  unfold generateRefreshToken at h
  cases hf : tokens.find? (fun t => t.id == id && t.type == "refresh") with
  | none =>
    rw [hf] at h
    simp only [List.mem_append, List.mem_singleton] at h
    rcases h with h | h
    · exact Or.inl h
    · exact Or.inr (by rw [h]; exact ⟨rfl, rfl⟩)
  | some a =>
    rw [hf] at h
    rcases mem_setFirstValue _ _ _ _ h with h1 | ⟨b, _, hpb, htb⟩
    · exact Or.inl h1
    · have hb : b.id = id ∧ b.type = "refresh" := by simpa using hpb
      exact Or.inr (by rw [htb]; exact hb)

theorem mem_logoutUser (bearer : String) (tokens : List Token) (t : Token)
    (h : t ∈ (logoutUser bearer tokens).tokens) : t ∈ tokens := by
  unfold logoutUser at h
  cases hf : tokens.find? (fun t => t.value == bearer && t.type == "bearer") with
  | none =>
    rw [hf] at h
    cases tokens with
    | nil => exact h
    | cons a l => exact h
  | some item =>
    rw [hf] at h
    exact (List.mem_filter.mp h).1

/-- Every `bearer` entry of a table the code can hold was signed for its own subject. -/
theorem reachable_bearer_signed (env : Env) (tokens : List Token) (h : Reachable env tokens) :
    ∀ t ∈ tokens, t.type = "bearer" →
      ∃ now, t.value = env.jwtSign now t.id env.accessSecret "10m" := by
  induction h with
  | init => intro t ht; simp at ht
  | access now id tokens hprev ih =>
    intro t ht hty
    by_cases hid : t.id = id
    · have hu := reachable_uniquePerKind env tokens hprev
      have hent := entriesOf_generateAccessToken env now id tokens hu
      have hmem : t ∈ entriesOf id "bearer" (generateAccessToken env now id tokens).2 := by
        unfold entriesOf
        rw [List.mem_filter]
        exact ⟨ht, by simp [hid, hty]⟩
      rw [hent, List.mem_singleton] at hmem
      refine ⟨now, ?_⟩
      rw [hmem, generateAccessToken_fst]
    · rcases mem_generateAccessToken env now id tokens t ht with h1 | h1
      · exact ih t h1 hty
      · exact absurd h1.1 hid
  | refresh now id tokens _ ih =>
    intro t ht hty
    rcases mem_generateRefreshToken env now id tokens t ht with h1 | h1
    · exact ih t h1 hty
    · rw [h1.2] at hty
      exact absurd hty (by decide)
  | logout bearer tokens _ ih =>
    intro t ht hty
    exact ih t (mem_logoutUser bearer tokens t ht) hty

theorem unaryEnv_signIdentifiesSubject : SignIdentifiesSubject unaryEnv := by
  have key : ∀ (n m : Nat) (A B : List Char),
      List.replicate n 't' ++ '.' :: A = List.replicate m 't' ++ '.' :: B → A = B := by
    intro n
    induction n with
    | zero =>
      intro m A B h
      cases m with
      | zero => simpa using h
      | succ m =>
        simp only [List.replicate_zero, List.nil_append, List.replicate_succ,
          List.cons_append, List.cons.injEq] at h
        exact absurd h.1 (by decide)
    | succ n ih =>
      intro m A B h
      cases m with
      | zero =>
        simp only [List.replicate_zero, List.nil_append, List.replicate_succ,
          List.cons_append, List.cons.injEq] at h
        exact absurd h.1 (by decide)
      | succ m =>
        simp only [List.replicate_succ, List.cons_append, List.cons.injEq, true_and] at h
        exact ih m A B h
  intro now now2 id id2 h
  have h2 : List.replicate now 't' ++ '.' :: id.toList =
      List.replicate now2 't' ++ '.' :: id2.toList := by
    have := congrArg String.toList h
    exact this
  have h3 := key now now2 _ _ h2
  exact String.ext h3

/-! ## C5: what logout leaves -/

/-- C5. For every token table the code can hold and every bearer token for which the lookup
finds a `bearer` entry `item`, of subject `item.id`, `logoutUser` answers 200 and leaves a
table with no entry whose value is the token and no `refresh` entry for that subject. On
that table the same token is refused with 403 "fail": by `logoutUser` itself, by
`isValidBearerToken`, and by the route `GET /logout`, and the table stays as it is. The
subject is the same for every `bearer` entry the token matches, `jwt.sign` giving different
tokens to different subjects. -/
theorem C5_logout_revokes_session (env : Env) (now : Nat) (bearer : String)
    (tokens : List Token) (item : Token) (hreach : Reachable env tokens)
    (hfind : tokens.find? (fun t => t.value == bearer && t.type == "bearer") = some item) :
    (logoutUser bearer tokens).sent = [.success 200 []] ∧
    (∀ t ∈ (logoutUser bearer tokens).tokens, t.value ≠ bearer) ∧
    (∀ t ∈ (logoutUser bearer tokens).tokens, ¬ (t.id = item.id ∧ t.type = "refresh")) ∧
    (logoutUser bearer (logoutUser bearer tokens).tokens).sent =
      [.failure 403 "fail" "incorrect bearer token"] ∧
    (logoutUser bearer (logoutUser bearer tokens).tokens).tokens =
      (logoutUser bearer tokens).tokens ∧
    (isValidBearerToken env now bearer (logoutUser bearer tokens).tokens).1 =
      .error (.appError "invalid authorization token" 403) ∧
    (logoutRoute env now bearer (logoutUser bearer tokens).tokens).sent =
      [.failure 403 "fail" "invalid authorization token"] ∧
    (logoutRoute env now bearer (logoutUser bearer tokens).tokens).tokens =
      (logoutUser bearer tokens).tokens ∧
    (SignIdentifiesSubject env →
      ∀ t ∈ tokens, t.type = "bearer" → t.value = bearer → t.id = item.id) := by
  have huniq := reachable_uniquePerKind env tokens hreach
  have hval : ∀ t ∈ (logoutUser bearer tokens).tokens, t.value ≠ bearer := by
    unfold logoutUser
    rw [hfind]
    intro t ht
    have := (List.mem_filter.mp ht).2
    simp only [Bool.and_eq_true, bne_iff_ne, ne_eq] at this
    exact this.1
  have hnone := find?_none_of_no_value bearer "bearer" _ hval
  have hvalid : isValidBearerToken env now bearer (logoutUser bearer tokens).tokens =
      (.error (.appError "invalid authorization token" 403), (logoutUser bearer tokens).tokens) := by
    generalize (logoutUser bearer tokens).tokens = after at hnone
    unfold isValidBearerToken
    rw [hnone]
  have hverify : verifyAccessToken env now bearer (logoutUser bearer tokens).tokens =
      { sent := [.failure 403 "fail" "invalid authorization token"], next := false,
        thrown := none, tokens := (logoutUser bearer tokens).tokens } := by
    unfold verifyAccessToken
    rw [hvalid]
    rfl
  refine ⟨?_, hval, ?_, ?_, ?_, ?_, ?_, ?_, ?_⟩
  · unfold logoutUser; rw [hfind]; rfl
  · unfold logoutUser
    rw [hfind]
    intro t ht hk
    have hmem := (List.mem_filter.mp ht).1
    have hkeep := (List.mem_filter.mp ht).2
    simp only [Bool.and_eq_true, bne_iff_ne, ne_eq] at hkeep
    cases hr : tokens.find? (fun t => t.id == item.id && t.type == "refresh") with
    | none =>
      have := (find?_none_iff_forall.mp hr) t hmem
      simp [hk.1, hk.2] at this
    | some refreshItem =>
      have hri := find?_some_mem hr
      simp only [Bool.and_eq_true, beq_iff_eq] at hri
      have heq : t = refreshItem :=
        eq_of_same_kind huniq hmem hri.1 (hk.1.trans hri.2.1.symm) (hk.2.trans hri.2.2.symm)
      rw [hr] at hkeep
      exact hkeep.2 (by rw [heq])
  · exact (logoutUser_of_find_none _ _ hnone).1
  · exact (logoutUser_of_find_none _ _ hnone).2
  · rw [hvalid]
  · unfold logoutRoute andThen; rw [hverify]; rfl
  · unfold logoutRoute andThen; rw [hverify]; rfl
  · intro hsign t ht hty hv
    have hitem := find?_some_mem hfind
    simp only [Bool.and_eq_true, beq_iff_eq] at hitem
    obtain ⟨n1, h1⟩ := reachable_bearer_signed env tokens hreach t ht hty
    obtain ⟨n2, h2⟩ := reachable_bearer_signed env tokens hreach item hitem.1 hitem.2.2
    exact hsign n1 n2 t.id item.id (h1.symm.trans (hv.trans (hitem.2.1.symm.trans h2)))

/-- C5, at the table built by a refresh token for `v` and a refresh and an access token
for `u`. -/
theorem C5_logout_revokes_session_witness :
    Reachable demoEnv
      [⟨"v", "refresh", "v.01d.R"⟩, ⟨"u", "refresh", "u.11d.R"⟩, ⟨"u", "bearer", "u.110m.A"⟩] ∧
    (logoutUser "u.110m.A"
      [⟨"v", "refresh", "v.01d.R"⟩, ⟨"u", "refresh", "u.11d.R"⟩,
        ⟨"u", "bearer", "u.110m.A"⟩]).tokens = [⟨"v", "refresh", "v.01d.R"⟩] ∧
    (logoutRoute demoEnv 2 "u.110m.A" (logoutUser "u.110m.A"
      [⟨"v", "refresh", "v.01d.R"⟩, ⟨"u", "refresh", "u.11d.R"⟩,
        ⟨"u", "bearer", "u.110m.A"⟩]).tokens).sent =
        [.failure 403 "fail" "invalid authorization token"] :=
  have hreach : Reachable demoEnv
      [⟨"v", "refresh", "v.01d.R"⟩, ⟨"u", "refresh", "u.11d.R"⟩, ⟨"u", "bearer", "u.110m.A"⟩] :=
    Reachable.access 1 "u" _ (Reachable.refresh 1 "u" _ (Reachable.refresh 0 "v" _ Reachable.init))
  ⟨hreach, by decide,
    (C5_logout_revokes_session demoEnv 2 "u.110m.A"
      [⟨"v", "refresh", "v.01d.R"⟩, ⟨"u", "refresh", "u.11d.R"⟩, ⟨"u", "bearer", "u.110m.A"⟩]
      ⟨"u", "bearer", "u.110m.A"⟩ hreach (by decide)).2.2.2.2.2.2.1⟩

/-! ## C7: the statement -/

/-- C7 (amended). On every token table the code can hold, two calls of
`generateAccessToken(S)` in succession leave exactly one `bearer` entry for `S`, and its
value is the token the second call returned. If the two returned tokens differ, the first
token then fails `isValidBearerToken` with 403, `jwt.sign` giving different tokens to
different subjects. -/
theorem C7_reissue_access_token (env : Env) (now1 now2 later : Nat) (S : String)
    (tokens : List Token) (hreach : Reachable env tokens) :
    entriesOf S "bearer"
        (generateAccessToken env now2 S (generateAccessToken env now1 S tokens).2).2 =
      [{ id := S, type := "bearer",
         value := (generateAccessToken env now2 S (generateAccessToken env now1 S tokens).2).1 }] ∧
    (SignIdentifiesSubject env →
      (generateAccessToken env now1 S tokens).1 ≠
        (generateAccessToken env now2 S (generateAccessToken env now1 S tokens).2).1 →
      (isValidBearerToken env later (generateAccessToken env now1 S tokens).1
          (generateAccessToken env now2 S (generateAccessToken env now1 S tokens).2).2).1 =
        .error (.appError "invalid authorization token" 403)) := by
  have huniq := reachable_uniquePerKind env tokens hreach
  have hu1 := uniquePerKind_generateAccessToken env now1 S huniq
  have hent := entriesOf_generateAccessToken env now2 S _ hu1
  refine ⟨hent, ?_⟩
  intro hsign hdiff
  have hother : ∀ t ∈ tokens, t.type = "bearer" →
      t.value = (generateAccessToken env now1 S tokens).1 → t.id = S := by
    intro t ht hty hv
    obtain ⟨now, hnow⟩ := reachable_bearer_signed env tokens hreach t ht hty
    rw [generateAccessToken_fst] at hv
    exact hsign now now1 t.id S (hnow.symm.trans hv)
  have hnone : (generateAccessToken env now2 S (generateAccessToken env now1 S tokens).2).2.find?
      (fun t => t.value == (generateAccessToken env now1 S tokens).1 && t.type == "bearer") =
      none := by
    rw [find?_none_iff_forall]
    intro t ht
    by_contra hc
    have hc2 : t.value = (generateAccessToken env now1 S tokens).1 ∧ t.type = "bearer" := by
      simpa using hc
    by_cases hid : t.id = S
    · have hmem : t ∈ entriesOf S "bearer"
          (generateAccessToken env now2 S (generateAccessToken env now1 S tokens).2).2 := by
        unfold entriesOf
        rw [List.mem_filter]
        exact ⟨ht, by simp [hid, hc2.2]⟩
      rw [hent, List.mem_singleton] at hmem
      have hv : t.value =
          (generateAccessToken env now2 S (generateAccessToken env now1 S tokens).2).1 := by
        rw [hmem]
      exact hdiff (hc2.1.symm.trans hv)
    · rcases mem_generateAccessToken env now2 S _ t ht with h1 | h1
      · rcases mem_generateAccessToken env now1 S _ t h1 with h2 | h2
        · exact hid (hother t h2 hc2.2 hc2.1)
        · exact hid h2.1
      · exact hid h1.1
  unfold isValidBearerToken
  rw [hnone]

/-- C7 (amended), at the table holding an access token of `v`, with the tokens of `u` signed
at the seconds 5 and 6. -/
theorem C7_reissue_access_token_witness :
    Reachable unaryEnv [⟨"v", "bearer", "ttt.v"⟩] ∧
    SignIdentifiesSubject unaryEnv ∧
    entriesOf "u" "bearer"
        (generateAccessToken unaryEnv 6 "u"
          (generateAccessToken unaryEnv 5 "u" [⟨"v", "bearer", "ttt.v"⟩]).2).2 =
      [⟨"u", "bearer", "tttttt.u"⟩] ∧
    (isValidBearerToken unaryEnv 7 "ttttt.u"
        (generateAccessToken unaryEnv 6 "u"
          (generateAccessToken unaryEnv 5 "u" [⟨"v", "bearer", "ttt.v"⟩]).2).2).1 =
      .error (.appError "invalid authorization token" 403) :=
  have hreach : Reachable unaryEnv [⟨"v", "bearer", "ttt.v"⟩] :=
    Reachable.access 3 "v" _ Reachable.init
  have h := C7_reissue_access_token unaryEnv 5 6 7 "u" [⟨"v", "bearer", "ttt.v"⟩] hreach
  ⟨hreach, unaryEnv_signIdentifiesSubject, h.1,
    h.2 unaryEnv_signIdentifiesSubject (by decide)⟩

/-- C7 (as stated) fails when both calls are signed within the same second: on the empty
table they return the same token, which is then the `bearer` entry of the subject, and the
first call's token passes `isValidBearerToken`. -/
theorem C7_counterexample :
    (generateAccessToken demoEnv 5 "u" []).1 =
      (generateAccessToken demoEnv 5 "u" (generateAccessToken demoEnv 5 "u" []).2).1 ∧
    (generateAccessToken demoEnv 5 "u" (generateAccessToken demoEnv 5 "u" []).2).2 =
      [⟨"u", "bearer", "u.510m.A"⟩] ∧
    (isValidBearerToken demoEnv 5 (generateAccessToken demoEnv 5 "u" []).1
      (generateAccessToken demoEnv 5 "u" (generateAccessToken demoEnv 5 "u" []).2).2).1 =
      .ok true := by
  refine ⟨by decide, by decide, ?_⟩
  rw [isValidBearerToken_ok_iff]
  decide

/-! ## Helper lemmas on the file store -/

theorem mem_unlink (files : List String) (p q : String) :
    q ∈ unlink files p ↔ q ∈ files ∧ q ≠ p := by
  unfold unlink
  simp [List.mem_filter]

theorem unlink_of_not_mem (files : List String) (p : String) (h : p ∉ files) :
    unlink files p = files := by
  unfold unlink
  rw [List.filter_eq_self]
  intro q hq
  have : q ≠ p := fun e => h (e ▸ hq)
  simpa using this

theorem existsSync_iff (files : List String) (p : String) :
    existsSync files p = true ↔ p ∈ files := by
  unfold existsSync
  simp

theorem sqlSelectById_eq_nil_iff (rows : List FileRow) (id : Nat) :
    sqlSelectById rows id = [] ↔ ∀ r ∈ rows, r.id ≠ id := by
  unfold sqlSelectById
  rw [List.filter_eq_nil_iff]
  simp

theorem getFileInfo_ok_iff (w : World) (id : Nat) (row : FileRow) :
    getFileInfoByIdOrThrowTheException w id = .ok row ↔
      (sqlSelectById w.rows id).head? = some row := by
  unfold getFileInfoByIdOrThrowTheException
  cases sqlSelectById w.rows id with
  | nil => simp
  | cons a l => simp

theorem getFileInfo_ok_mem (w : World) (id : Nat) (row : FileRow)
    (h : getFileInfoByIdOrThrowTheException w id = .ok row) : row ∈ w.rows ∧ row.id = id := by
  rw [getFileInfo_ok_iff] at h
  have hm : row ∈ sqlSelectById w.rows id := List.mem_of_mem_head? h
  unfold sqlSelectById at hm
  rw [List.mem_filter] at hm
  exact ⟨hm.1, by simpa using hm.2⟩

theorem getFileInfo_of_no_row (w : World) (id : Nat) (h : ∀ r ∈ w.rows, r.id ≠ id) :
    getFileInfoByIdOrThrowTheException w id =
      .error (.appError (String.join ["file by id ", toString id, " not found"]) 404) := by
  unfold getFileInfoByIdOrThrowTheException
  rw [(sqlSelectById_eq_nil_iff w.rows id).mpr h]

/-- The state left by `deleteFileByIdOrThrowTheException`, branch by branch. -/
theorem deleteFile_state (resolve : String → String) (w : World) (id : Nat) :
    (deleteFileByIdOrThrowTheException resolve w id).1 = .ok (sqlDeleteById w.rows id).2 ∧
    (deleteFileByIdOrThrowTheException resolve w id).2.rows = (sqlDeleteById w.rows id).1 ∧
    (deleteFileByIdOrThrowTheException resolve w id).2.autoIncrement = w.autoIncrement ∧
    (deleteFileByIdOrThrowTheException resolve w id).2.files =
      if (sqlDeleteById w.rows id).2 > 0 then
        unlink w.files
          (resolve (match sqlSelectById w.rows id with | row :: _ => row.path | [] => ""))
      else w.files := by
  unfold deleteFileByIdOrThrowTheException
  dsimp only
  by_cases hd : (sqlDeleteById w.rows id).2 > 0
  · by_cases he : existsSync w.files
        (resolve (match sqlSelectById w.rows id with | row :: _ => row.path | [] => "")) = true
    · simp [hd, he]
    · have hn := mt (existsSync_iff w.files _).mpr he
      simp [hd, he, unlink_of_not_mem _ _ hn]
  · simp [hd]

/-- The state left by `updateFileByIdOrThrowTheException` on an existing id. -/
theorem updateFile_state (resolve : String → String) (now : Nat) (w : World) (id : Nat)
    (d : DbData) (oldVersion : FileRow)
    (hold : getFileInfoByIdOrThrowTheException w id = .ok oldVersion) :
    (updateFileByIdOrThrowTheException resolve now w id d).2.rows = (sqlUpdateById w.rows id d now).1 ∧
    (updateFileByIdOrThrowTheException resolve now w id d).2.autoIncrement = w.autoIncrement ∧
    (updateFileByIdOrThrowTheException resolve now w id d).2.files =
      if (sqlUpdateById w.rows id d now).2 > 0 then unlink w.files (resolve oldVersion.path)
      else w.files := by
  unfold updateFileByIdOrThrowTheException
  rw [hold]
  dsimp only
  by_cases hc : (sqlUpdateById w.rows id d now).2 > 0
  · simp only [hc, if_true]
    by_cases he : existsSync w.files (resolve oldVersion.path) = true
    · simp only [he, if_true]
      split <;> simp
    · have hn := mt (existsSync_iff w.files _).mpr he
      simp only [he, Bool.false_eq_true, if_false]
      split <;> simp [unlink_of_not_mem _ _ hn]
  · simp [hc]

/-! ## C8: every row keeps its file -/

theorem distinctPaths_ne (resolve : String → String) (w : World) (h : DistinctPaths resolve w)
    {a b : FileRow} (ha : a ∈ w.rows) (hb : b ∈ w.rows) (hab : a ≠ b) :
    resolve a.path ≠ resolve b.path := by
  unfold DistinctPaths at h
  exact List.Pairwise.forall (fun x y hxy => Ne.symm hxy) h ha hb hab

theorem mem_sqlUpdateById (rows : List FileRow) (id : Nat) (d : DbData) (now : Nat)
    (r : FileRow) (h : r ∈ (sqlUpdateById rows id d now).1) :
    (r ∈ rows ∧ r.id ≠ id) ∨ (r.path = d.path ∧ r.id = id) := by
  unfold sqlUpdateById at h
  simp only [List.mem_map] at h
  obtain ⟨a, ha, hr⟩ := h
  by_cases hid : a.id = id
  · simp only [hid, beq_self_eq_true, if_true] at hr
    exact Or.inr (by rw [← hr]; exact ⟨rfl, hid⟩)
  · have : (a.id == id) = false := by simpa using hid
    simp only [this, Bool.false_eq_true, if_false] at hr
    exact Or.inl (by rw [← hr]; exact ⟨ha, hid⟩)

theorem mem_sqlDeleteById (rows : List FileRow) (id : Nat) (r : FileRow) :
    r ∈ (sqlDeleteById rows id).1 ↔ r ∈ rows ∧ r.id ≠ id := by
  unfold sqlDeleteById
  simp [List.mem_filter]

theorem sqlDeleteById_count_pos (rows : List FileRow) (id : Nat)
    (h : (sqlDeleteById rows id).2 > 0) :
    ∃ row rest, sqlSelectById rows id = row :: rest := by
  unfold sqlDeleteById at h
  unfold sqlSelectById
  cases hl : rows.filter (fun r => r.id == id) with
  | nil => simp [hl] at h
  | cons a l => exact ⟨a, l, rfl⟩

/-- C8. In a state where every row's path names an existing file and distinct rows name
distinct files: after `uploadFileOrThrowTheException` with a written file, after
`updateFileByIdOrThrowTheException` with a freshly written file (it exists and no row names
it), and after `deleteFileByIdOrThrowTheException`, every row that remains has a path that
still names an existing file. -/
theorem C8_rows_have_files_preserved (resolve : String → String) (now : Nat) (w : World)
    (id : Nat) (hinv : RowsHaveFiles resolve w) (hdist : DistinctPaths resolve w) :
    (∀ d : DbData, resolve d.path ∈ w.files →
      RowsHaveFiles resolve (uploadFileOrThrowTheException now w d).2) ∧
    (∀ d : DbData, resolve d.path ∈ w.files →
      (∀ r ∈ w.rows, resolve r.path ≠ resolve d.path) →
      RowsHaveFiles resolve (updateFileByIdOrThrowTheException resolve now w id d).2) ∧
    RowsHaveFiles resolve (deleteFileByIdOrThrowTheException resolve w id).2 := by
  refine ⟨?_, ?_, ?_⟩
  · intro d hwritten
    unfold uploadFileOrThrowTheException sqlInsert RowsHaveFiles
    intro r hr
    simp only [List.mem_append, List.mem_singleton] at hr
    rcases hr with hr | hr
    · exact hinv r hr
    · rw [hr]; exact hwritten
  · intro d hwritten hfresh
    cases hold : getFileInfoByIdOrThrowTheException w id with
    | error err =>
      have : updateFileByIdOrThrowTheException resolve now w id d = (.error err, w) := by
        unfold updateFileByIdOrThrowTheException
        rw [hold]
      rw [this]
      exact hinv
    | ok oldVersion =>
      obtain ⟨hrows, _, hfiles⟩ := updateFile_state resolve now w id d oldVersion hold
      have hmem := getFileInfo_ok_mem w id oldVersion hold
      intro r hr
      rw [hrows] at hr
      rw [hfiles]
      have hin : resolve r.path ∈ w.files ∧ resolve r.path ≠ resolve oldVersion.path := by
        rcases mem_sqlUpdateById _ _ _ _ _ hr with ⟨h1, h2⟩ | ⟨h1, _⟩
        · refine ⟨hinv r h1, distinctPaths_ne resolve w hdist h1 hmem.1 ?_⟩
          intro e
          exact h2 (e ▸ hmem.2)
        · rw [h1]
          exact ⟨hwritten, (hfresh oldVersion hmem.1).symm⟩
      split
      · exact (mem_unlink _ _ _).mpr hin
      · exact hin.1
  · obtain ⟨_, hrows, _, hfiles⟩ := deleteFile_state resolve w id
    intro r hr
    rw [hrows] at hr
    rw [hfiles]
    have hr2 := (mem_sqlDeleteById _ _ _).mp hr
    split
    · rename_i hpos
      obtain ⟨row, rest, hsel⟩ := sqlDeleteById_count_pos _ _ hpos
      rw [hsel]
      have hrow : row ∈ w.rows ∧ row.id = id := by
        have hm : row ∈ sqlSelectById w.rows id := by rw [hsel]; exact List.mem_cons_self _ _
        unfold sqlSelectById at hm
        rw [List.mem_filter] at hm
        exact ⟨hm.1, by simpa using hm.2⟩
      refine (mem_unlink _ _ _).mpr ⟨hinv r hr2.1, distinctPaths_ne resolve w hdist hr2.1 hrow.1 ?_⟩
      intro e
      exact hr2.2 (e ▸ hrow.2)
    · exact hinv r hr2.1

/-- C8, at a state with two rows, their two files and one freshly written file; the delete
is also run on the state without the extra file. -/
theorem C8_rows_have_files_preserved_witness :
    RowsHaveFiles demoResolve demoWorld ∧ DistinctPaths demoResolve demoWorld ∧
    RowsHaveFiles demoResolve (uploadFileOrThrowTheException 20 demoWorld demoData).2 ∧
    RowsHaveFiles demoResolve
      (updateFileByIdOrThrowTheException demoResolve 20 demoWorld 1 demoData).2 ∧
    RowsHaveFiles demoResolve (deleteFileByIdOrThrowTheException demoResolve demoWorld 1).2 ∧
    RowsHaveFiles demoResolve
      (deleteFileByIdOrThrowTheException demoResolve
        { demoWorld with files := ["/srv/app/upload/f1", "/srv/app/upload/f2"] } 1).2 :=
  have h := C8_rows_have_files_preserved demoResolve 20 demoWorld 1 (by decide) (by decide)
  ⟨by decide, by decide, h.1 demoData (by decide), h.2.1 demoData (by decide) (by decide), h.2.2,
    (C8_rows_have_files_preserved demoResolve 20
      { demoWorld with files := ["/srv/app/upload/f1", "/srv/app/upload/f2"] } 1
      (by decide) (by decide)).2.2⟩

/-! ## C9: delete -/

theorem sqlDeleteById_of_no_row (rows : List FileRow) (id : Nat) (h : ∀ r ∈ rows, r.id ≠ id) :
    sqlDeleteById rows id = (rows, 0) := by
  unfold sqlDeleteById
  have h1 : rows.filter (fun r => r.id != id) = rows := by
    rw [List.filter_eq_self]
    intro r hr
    simpa using h r hr
  have h2 : rows.filter (fun r => r.id == id) = [] := by
    rw [List.filter_eq_nil_iff]
    intro r hr
    simpa using h r hr
  rw [h1, h2]
  rfl

/-- C9. `deleteFileByIdOrThrowTheException` on an id with no row returns the count 0 and
leaves the store and the filesystem as they were. On an id whose lookup returns `row` it
returns a positive count, no row with that id is left, no file exists at the path of `row`,
and `getFileInfoByIdOrThrowTheException(id)` then fails with the 404 error. -/
theorem C9_delete_file (resolve : String → String) (w : World) (id : Nat) :
    ((∀ r ∈ w.rows, r.id ≠ id) →
      deleteFileByIdOrThrowTheException resolve w id = (.ok 0, w)) ∧
    (∀ row, getFileInfoByIdOrThrowTheException w id = .ok row →
      (∃ n, 0 < n ∧ (deleteFileByIdOrThrowTheException resolve w id).1 = .ok n) ∧
      (∀ r ∈ (deleteFileByIdOrThrowTheException resolve w id).2.rows, r.id ≠ id) ∧
      resolve row.path ∉ (deleteFileByIdOrThrowTheException resolve w id).2.files ∧
      existsSync (deleteFileByIdOrThrowTheException resolve w id).2.files (resolve row.path) =
        false ∧
      getFileInfoByIdOrThrowTheException (deleteFileByIdOrThrowTheException resolve w id).2 id =
        .error (.appError (String.join ["file by id ", toString id, " not found"]) 404) ∧
      (.appError (String.join ["file by id ", toString id, " not found"]) 404 : Thrown).status =
        some "fail") := by
  obtain ⟨hres, hrows, hauto, hfiles⟩ := deleteFile_state resolve w id
  constructor
  · intro hno
    have hd := sqlDeleteById_of_no_row w.rows id hno
    rw [hd] at hres hrows hfiles
    simp only [gt_iff_lt, lt_self_iff_false, if_false] at hfiles
    rcases hp : deleteFileByIdOrThrowTheException resolve w id with ⟨res, w'⟩
    rw [hp] at hres hrows hauto hfiles
    simp only at hres hrows hauto hfiles
    cases w'
    cases w
    simp only at hrows hauto hfiles
    subst hres hrows hauto hfiles
    rfl
  · intro row hrow
    have hsel := (getFileInfo_ok_iff w id row).mp hrow
    have hpos : (sqlDeleteById w.rows id).2 > 0 := by
      unfold sqlDeleteById
      unfold sqlSelectById at hsel
      cases hl : w.rows.filter (fun r => r.id == id) with
      | nil => rw [hl] at hsel; simp at hsel
      | cons a l => simp
    have hpath : (match sqlSelectById w.rows id with | r :: _ => r.path | [] => "") =
        row.path := by
      cases hl : sqlSelectById w.rows id with
      | nil => rw [hl] at hsel; simp at hsel
      | cons a l =>
        rw [hl] at hsel
        simp only [List.head?_cons, Option.some.injEq] at hsel
        rw [hsel]
    rw [hpath] at hfiles
    simp only [hpos, if_true] at hfiles
    have hgone : ∀ r ∈ (deleteFileByIdOrThrowTheException resolve w id).2.rows, r.id ≠ id := by
      intro r hr
      rw [hrows] at hr
      exact ((mem_sqlDeleteById _ _ _).mp hr).2
    have hnot : resolve row.path ∉ (deleteFileByIdOrThrowTheException resolve w id).2.files := by
      rw [hfiles]
      intro hm
      exact ((mem_unlink _ _ _).mp hm).2 rfl
    refine ⟨⟨_, hpos, hres⟩, hgone, hnot, ?_, getFileInfo_of_no_row _ id hgone, rfl⟩
    cases he : existsSync (deleteFileByIdOrThrowTheException resolve w id).2.files
      (resolve row.path) with
    | false => rfl
    | true => exact absurd ((existsSync_iff _ _).mp he) hnot

/-- C9, at a state with two rows: the id 7 has no row, the id 1 has one. -/
theorem C9_delete_file_witness :
    deleteFileByIdOrThrowTheException demoResolve demoWorld 7 = (.ok 0, demoWorld) ∧
    (∃ n, 0 < n ∧ (deleteFileByIdOrThrowTheException demoResolve demoWorld 1).1 = .ok n) ∧
    "/srv/app/upload/f1" ∉ (deleteFileByIdOrThrowTheException demoResolve demoWorld 1).2.files ∧
    getFileInfoByIdOrThrowTheException
        (deleteFileByIdOrThrowTheException demoResolve demoWorld 1).2 1 =
      .error (.appError "file by id 1 not found" 404) :=
  have h := (C9_delete_file demoResolve demoWorld 1).2
    { id := 1, name := "a.txt", extension := "txt", mimetype := "text/plain", size := 3,
      uploaded := 10, path := "upload/f1" } rfl
  ⟨(C9_delete_file demoResolve demoWorld 7).1 (by decide), h.1, h.2.2.1, h.2.2.2.2.1⟩

/-! ## C10: update -/

theorem getFileInfo_congr (w1 w2 : World) (id : Nat) (h : w1.rows = w2.rows) :
    getFileInfoByIdOrThrowTheException w1 id = getFileInfoByIdOrThrowTheException w2 id := by
  unfold getFileInfoByIdOrThrowTheException
  rw [h]

theorem sqlSelectById_sqlUpdateById (rows : List FileRow) (id : Nat) (d : DbData) (now : Nat) :
    sqlSelectById (sqlUpdateById rows id d now).1 id =
      (sqlSelectById rows id).map (fun r => setData r d now) := by
  unfold sqlSelectById sqlUpdateById
  induction rows with
  | nil => rfl
  | cons a l ih =>
    simp only at ih
    by_cases h : a.id = id
    · have hb : (a.id == id) = true := by simpa using h
      have hs : ((setData a d now).id == id) = true := by simpa [setData] using h
      simp only [List.map_cons, List.filter_cons, hb, hs, if_true]
      rw [ih]
    · have hb : (a.id == id) = false := by simpa using h
      simp only [List.map_cons, List.filter_cons, hb, Bool.false_eq_true, if_false]
      exact ih

theorem sqlUpdateById_of_unchanged (rows : List FileRow) (id : Nat) (d : DbData) (now : Nat)
    (h : (sqlUpdateById rows id d now).2 = 0) : (sqlUpdateById rows id d now).1 = rows := by
  unfold sqlUpdateById at h ⊢
  simp only [List.length_eq_zero, List.filter_eq_nil_iff] at h
  simp only
  conv_rhs => rw [← List.map_id rows]
  apply List.map_congr_left
  intro r hr
  have := h r hr
  by_cases hid : r.id = id
  · simp only [hid, beq_self_eq_true, Bool.true_and, bne_iff_ne, ne_eq, not_not] at this
    simp [hid, this]
  · have hb : (r.id == id) = false := by simpa using hid
    simp [hb]

/-- C10. For an id whose lookup returns `oldVersion`: when the update reports
`changedRows > 0`, the file of `oldVersion` is unlinked, nothing else on disk changes, and
the row re-read after the update is returned; when `changedRows` is 0, nothing is returned
and the store and the filesystem are as they were. If the old file existed, it is gone
afterwards exactly when `changedRows > 0`. -/
theorem C10_update_file (resolve : String → String) (now : Nat) (w : World) (id : Nat)
    (d : DbData) (oldVersion : FileRow)
    (hold : getFileInfoByIdOrThrowTheException w id = .ok oldVersion) :
    (0 < (sqlUpdateById w.rows id d now).2 →
      (updateFileByIdOrThrowTheException resolve now w id d).2.files =
        unlink w.files (resolve oldVersion.path) ∧
      resolve oldVersion.path ∉ (updateFileByIdOrThrowTheException resolve now w id d).2.files ∧
      (∃ row, (updateFileByIdOrThrowTheException resolve now w id d).1 = .ok (some row) ∧
        getFileInfoByIdOrThrowTheException
          (updateFileByIdOrThrowTheException resolve now w id d).2 id = .ok row ∧
        row = setData oldVersion d now)) ∧
    ((sqlUpdateById w.rows id d now).2 = 0 →
      updateFileByIdOrThrowTheException resolve now w id d = (.ok none, w)) ∧
    (resolve oldVersion.path ∈ w.files →
      (resolve oldVersion.path ∉ (updateFileByIdOrThrowTheException resolve now w id d).2.files ↔
        0 < (sqlUpdateById w.rows id d now).2)) := by
  obtain ⟨hrows, _, hfiles⟩ := updateFile_state resolve now w id d oldVersion hold
  have hreread : ∀ w2 : World, w2.rows = (sqlUpdateById w.rows id d now).1 →
      getFileInfoByIdOrThrowTheException w2 id = .ok (setData oldVersion d now) := by
    intro w2 h2
    rw [getFileInfo_ok_iff, h2, sqlSelectById_sqlUpdateById]
    have := (getFileInfo_ok_iff w id oldVersion).mp hold
    cases hl : sqlSelectById w.rows id with
    | nil => rw [hl] at this; simp at this
    | cons a l =>
      rw [hl] at this
      simp only [List.head?_cons, Option.some.injEq] at this
      simp [this]
  refine ⟨?_, ?_, ?_⟩
  · intro hpos
    have hf : (updateFileByIdOrThrowTheException resolve now w id d).2.files =
        unlink w.files (resolve oldVersion.path) := by
      rw [hfiles]; simp [hpos]
    refine ⟨hf, ?_, setData oldVersion d now, ?_, hreread _ hrows, rfl⟩
    · rw [hf]
      intro hm
      exact ((mem_unlink _ _ _).mp hm).2 rfl
    · unfold updateFileByIdOrThrowTheException
      rw [hold]
      simp only [gt_iff_lt, hpos, if_true]
      rw [hreread _ (by split <;> rfl)]
  · intro hzero
    unfold updateFileByIdOrThrowTheException
    rw [hold]
    simp only [hzero, gt_iff_lt, lt_self_iff_false, if_false]
    rw [sqlUpdateById_of_unchanged _ _ _ _ hzero]
  · intro hex
    rw [hfiles]
    by_cases hpos : 0 < (sqlUpdateById w.rows id d now).2
    · simp only [gt_iff_lt, hpos, if_true, iff_true]
      intro hm
      exact ((mem_unlink _ _ _).mp hm).2 rfl
    · simp only [gt_iff_lt, hpos, if_false, iff_false, not_not]
      exact hex

/-- C10, at a state with two rows: the row 1 is replaced by the freshly written file. -/
theorem C10_update_file_witness :
    0 < (sqlUpdateById demoWorld.rows 1 demoData 20).2 ∧
    (updateFileByIdOrThrowTheException demoResolve 20 demoWorld 1 demoData).2.files =
      ["/srv/app/upload/f2", "/srv/app/upload/f3"] ∧
    (updateFileByIdOrThrowTheException demoResolve 20 demoWorld 1 demoData).1 =
      .ok (some { id := 1, name := "c.txt", extension := "txt", mimetype := "text/plain",
                  size := 5, uploaded := 20, path := "upload/f3" }) ∧
    (sqlUpdateById demoWorld.rows 1
      { name := "a.txt", extension := "txt", mimetype := "text/plain", size := 3,
        path := "upload/f1" } 10).2 = 0 ∧
    updateFileByIdOrThrowTheException demoResolve 10 demoWorld 1
      { name := "a.txt", extension := "txt", mimetype := "text/plain", size := 3,
        path := "upload/f1" } = (.ok none, demoWorld) :=
  have h := C10_update_file demoResolve 20 demoWorld 1 demoData
    { id := 1, name := "a.txt", extension := "txt", mimetype := "text/plain", size := 3,
      uploaded := 10, path := "upload/f1" } rfl
  have h0 := C10_update_file demoResolve 10 demoWorld 1
    { name := "a.txt", extension := "txt", mimetype := "text/plain", size := 3,
      path := "upload/f1" }
    { id := 1, name := "a.txt", extension := "txt", mimetype := "text/plain", size := 3,
      uploaded := 10, path := "upload/f1" } rfl
  ⟨by decide, by decide, by
    obtain ⟨row, h1, _, h3⟩ := (h.1 (by decide)).2.2
    rw [h1, h3]; rfl, by decide, h0.2.1 (by decide)⟩

/-! ## C11, C12: the window of the file list -/

theorem roundNat_of_lt (n : Nat) (h : n < 2 ^ 53) : roundNat n = n := by
  unfold roundNat
  rw [if_pos h]

theorem roundDouble_natCast (n : Nat) (h : n < 2 ^ 53) : roundDouble (n : Int) = n := by
  unfold roundDouble
  rw [if_pos (Int.ofNat_nonneg n), Int.toNat_ofNat, roundNat_of_lt n h]

theorem jsNumber_of_denotes (js : Js) (v : JsVal) (n : Nat) (h : denotes js v n = true) :
    jsNumber js v = .int n ∧ jsNumber js (jsOr v (.num (.int 0))) = .int n ∧
      orDefault v (.num (.int 10)) = v ∧ orDefault v (.num (.int 1)) = v := by
  cases v with
  | undefined => simp [denotes] at h
  | num m =>
    have hm : m = .int n := by
      have := h
      simp only [denotes, Bool.and_eq_true, beq_iff_eq] at this
      exact this.1
    subst hm
    refine ⟨rfl, ?_, rfl, rfl⟩
    unfold jsOr JsVal.truthy
    by_cases hz : (n : Int) = 0
    · simp [hz, jsNumber]
    · simp [hz, jsNumber]
  | str str =>
    have hs : str ≠ "" ∧ js.toNumber str = .int n := by
      have := h
      simp only [denotes, Bool.and_eq_true, bne_iff_ne, ne_eq, beq_iff_eq] at this
      exact this.1
    refine ⟨hs.2, ?_, rfl, rfl⟩
    unfold jsOr JsVal.truthy
    simp [hs.1, jsNumber, hs.2]

theorem jsNumber_jsOr_int (js : Js) (x : Int) :
    jsNumber js (jsOr (.num (.int x)) (.num (.int 0))) = .int x := by
  unfold jsOr JsVal.truthy
  by_cases hz : x = 0
  · simp [hz, jsNumber]
  · simp [hz, jsNumber]

theorem getFilesListQuery_of_denotes (js : Js) (s p : Nat) (S P : JsVal) (hp : 1 ≤ p)
    (hbound : s * (p - 1) < 2 ^ 53)
    (hS : denotes js S s = true) (hP : denotes js P p = true) :
    getFilesListQuery js S P = (.int s, .int ((s * (p - 1) : Nat) : Int)) := by
  obtain ⟨hS1, hS2, hS3, _⟩ := jsNumber_of_denotes js S s hS
  obtain ⟨hP1, _, _, hP4⟩ := jsNumber_of_denotes js P p hP
  unfold getFilesListQuery calculateOffset
  simp only [hS3, hP4, hS1, hS2, hP1, JsNum.sub, jsNumber_jsOr_int]
  have hcast : ((p : Int) - 1) = ((p - 1 : Nat) : Int) := by
    rw [Nat.cast_sub hp]; rfl
  rw [hcast]
  by_cases hs : s = 0
  · subst hs
    have h0 : roundDouble 0 = 0 := by decide
    simp [JsNum.mul, jsNumber, h0]
  · have hpos : 0 < s := Nat.pos_of_ne_zero hs
    have hp1 : p - 1 < 2 ^ 53 := lt_of_le_of_lt (Nat.le_mul_of_pos_left (p - 1) hpos) hbound
    rw [roundDouble_natCast (p - 1) hp1]
    simp only [JsNum.mul, jsNumber]
    rw [← Nat.cast_mul, roundDouble_natCast _ hbound]

theorem sqlSelectPage_nat (rows : List FileRow) (limit offset : Nat) :
    sqlSelectPage rows (.int limit) (.int offset) =
      .ok (((rows.insertionSort idLe).drop offset).take limit) := by
  unfold sqlSelectPage
  simp

theorem ids_of_sorted_rows (rows : List FileRow) (ids : List Nat)
    (hperm : (rows.map (fun r => r.id)).Perm ids) (hsorted : ids.Sorted (· ≤ ·)) :
    (rows.insertionSort idLe).map (fun r => r.id) = ids := by
  have h1 : ((rows.insertionSort idLe).map (fun r => r.id)).Sorted (· ≤ ·) := by
    have := List.sorted_insertionSort idLe rows
    unfold List.Sorted at this ⊢
    rw [List.pairwise_map]
    exact this
  have h2 : ((rows.insertionSort idLe).map (fun r => r.id)).Perm ids :=
    ((List.perm_insertionSort idLe rows).map _).trans hperm
  exact List.eq_of_perm_of_sorted h2 h1 hsorted

/-- C11 (amended). For a page size `s ≥ 0` and a page number `p ≥ 1`, each given as a number
or as a numeric string, with `s * (p - 1)` below `2 ^ 53`, `getFilesListOrThrowTheException`
issues its query with `LIMIT s` and `OFFSET s * (p - 1)` and returns that window of the rows
in ascending id order. Over rows whose ids are 1, 2, 3, 4, 5, page size 2 and page number 2
give the ids 3, 4. -/
theorem C11_list_window (js : Js) (w : World) (s p : Nat) (S P : JsVal) (hp : 1 ≤ p)
    (hbound : s * (p - 1) < 2 ^ 53)
    (hS : denotes js S s = true) (hP : denotes js P p = true) :
    getFilesListQuery js S P = (.int s, .int ((s * (p - 1) : Nat) : Int)) ∧
    getFilesListOrThrowTheException js w S P =
      .ok (((w.rows.insertionSort idLe).drop (s * (p - 1))).take s) ∧
    (w.rows.insertionSort idLe).Sorted idLe ∧
    (w.rows.insertionSort idLe).Perm w.rows ∧
    (∀ S2 P2 : JsVal, denotes js S2 2 = true → denotes js P2 2 = true →
      (w.rows.map (fun r => r.id)).Perm [1, 2, 3, 4, 5] →
      ∃ rs, getFilesListOrThrowTheException js w S2 P2 = .ok rs ∧
        rs.map (fun r => r.id) = [3, 4]) := by
  have hq := getFilesListQuery_of_denotes js s p S P hp hbound hS hP
  refine ⟨hq, ?_, List.sorted_insertionSort idLe w.rows, List.perm_insertionSort idLe w.rows, ?_⟩
  · unfold getFilesListOrThrowTheException
    simp only [hq]
    exact sqlSelectPage_nat _ _ _
  · intro S2 P2 hS2 hP2 hperm
    have hq2 := getFilesListQuery_of_denotes js 2 2 S2 P2 (by decide) (by decide) hS2 hP2
    refine ⟨((w.rows.insertionSort idLe).drop 2).take 2, ?_, ?_⟩
    · unfold getFilesListOrThrowTheException
      simp only [hq2]
      exact sqlSelectPage_nat _ _ _
    · rw [List.map_take, List.map_drop, ids_of_sorted_rows w.rows [1, 2, 3, 4, 5] hperm (by decide)]
      rfl

/-- C11 (amended), at five rows stored out of order, with the page size as the string `2`
and the page number as the number 2. -/
theorem C11_list_window_witness :
    denotes demoJs (.str "2") 2 = true ∧ denotes demoJs (.num (.int 2)) 2 = true ∧
    getFilesListQuery demoJs (.str "2") (.num (.int 2)) = (.int 2, .int 2) ∧
    getFilesListOrThrowTheException demoJs
      ⟨[demoRow 3, demoRow 1, demoRow 5, demoRow 2, demoRow 4], 6, []⟩
      (.str "2") (.num (.int 2)) = .ok [demoRow 3, demoRow 4] :=
  have h := C11_list_window demoJs ⟨[demoRow 3, demoRow 1, demoRow 5, demoRow 2, demoRow 4], 6, []⟩
    2 2 (.str "2") (.num (.int 2)) (by decide) (by decide) (by decide) (by decide)
  ⟨by decide, by decide, h.1, h.2.1⟩

/-- C11 (as stated) fails where the product is no double: for the page size 94906267 and the
page number 94906268, both doubles, `s * (p - 1)` is 9007199515875289 and the query is
issued with `OFFSET 9007199515875288`, the product of the doubles. -/
theorem C11_counterexample :
    denotes demoJs (.num (.int 94906267)) 94906267 = true ∧
    denotes demoJs (.num (.int 94906268)) 94906268 = true ∧
    94906267 * (94906268 - 1) = 9007199515875289 ∧
    getFilesListQuery demoJs (.num (.int 94906267)) (.num (.int 94906268)) =
      (.int 94906267, .int 9007199515875288) ∧
    ¬ (getFilesListQuery demoJs (.num (.int 94906267)) (.num (.int 94906268)) =
      (.int 94906267, .int ((94906267 * (94906268 - 1) : Nat) : Int))) := by
  refine ⟨by decide, by decide, by decide, by decide, by decide⟩

/-- C12 (amended). An absent (`undefined`) page size is replaced by 10 and an absent page
number by 1: the query has the same `LIMIT` and `OFFSET`, and the call the same result, as
if 10, respectively 1, had been passed; with both absent the query is `LIMIT 10 OFFSET 0`. -/
theorem C12_defaults_for_absent (js : Js) (w : World) (S P : JsVal) :
    getFilesListQuery js .undefined P = getFilesListQuery js (.num (.int 10)) P ∧
    getFilesListQuery js S .undefined = getFilesListQuery js S (.num (.int 1)) ∧
    getFilesListOrThrowTheException js w .undefined P =
      getFilesListOrThrowTheException js w (.num (.int 10)) P ∧
    getFilesListOrThrowTheException js w S .undefined =
      getFilesListOrThrowTheException js w S (.num (.int 1)) ∧
    getFilesListQuery js .undefined .undefined = (.int 10, .int 0) := by
  have h1 : getFilesListQuery js .undefined P = getFilesListQuery js (.num (.int 10)) P := rfl
  have h2 : getFilesListQuery js S .undefined = getFilesListQuery js S (.num (.int 1)) := by
    cases S <;> rfl
  refine ⟨h1, h2, ?_, ?_, rfl⟩
  · unfold getFilesListOrThrowTheException; rw [h1]
  · unfold getFilesListOrThrowTheException; rw [h2]

/-- C12 (as stated) fails for the falsy values that are not `undefined`. A page size 0 or
an empty string gives `LIMIT 0`, not `LIMIT 10`; a page number 0 or an empty string with the
default page size gives `OFFSET -10`, not `OFFSET 0`, and the store rejects the statement. -/
theorem C12_counterexample :
    getFilesListQuery demoJs (.num (.int 0)) (.num (.int 1)) = (.int 0, .int 0) ∧
    getFilesListQuery demoJs (.str "") (.num (.int 1)) = (.int 0, .int 0) ∧
    getFilesListQuery demoJs (.num (.int 10)) (.num (.int 1)) = (.int 10, .int 0) ∧
    getFilesListQuery demoJs (.num (.int 10)) (.num (.int 0)) = (.int 10, .int (-10)) ∧
    getFilesListQuery demoJs (.num (.int 10)) (.str "") = (.int 10, .int (-10)) ∧
    getFilesListOrThrowTheException demoJs demoWorld (.num (.int 10)) (.num (.int 0)) =
      .error (.error "You have an error in your SQL syntax") ∧
    ¬ (getFilesListQuery demoJs (.num (.int 0)) (.num (.int 1)) =
        getFilesListQuery demoJs (.num (.int 10)) (.num (.int 1))) ∧
    ¬ (getFilesListQuery demoJs (.num (.int 10)) (.num (.int 0)) =
        getFilesListQuery demoJs (.num (.int 10)) (.num (.int 1))) := by
  refine ⟨by decide, by decide, by decide, by decide, by decide, rfl, by decide, by decide⟩

/-! ## C13, C14: password and identifier -/

theorem isValidUserPassword_some (password : String) :
    isValidUserPassword (some password) =
      if isLength (jsTrim password) 4 10 then .ok true
      else .error (.appError "password expected as string between 4 and 10 characters long" 405) := by
  unfold isValidUserPassword
  by_cases h : password = ""
  · subst h
    have : jsTrim "" = "" := by decide
    simp only [if_true, this]
    cases isLength "" 4 10 <;> rfl
  · simp only [h, if_false]
    cases isLength (jsTrim password) 4 10 <;> rfl

theorem isLength_iff (str : String) (min max : Nat) :
    isLength str min max = true ↔ min ≤ validatorLength str ∧ validatorLength str ≤ max := by
  unfold isLength
  simp

theorem validatorLength_of_no_selector (cs : List Char)
    (h : ∀ c ∈ cs, isVariationSelector c = false) :
    (cs.filter (fun c => !isVariationSelector c)).length = cs.length := by
  have : cs.filter (fun c => !isVariationSelector c) = cs := by
    rw [List.filter_eq_self]
    intro c hc
    simp [h c hc]
  rw [this]

/-- What `trim` leaves of white space, a core that neither starts nor ends with white space,
and white space again: the core. -/
theorem trim_chars (pre core post : List Char)
    (hpre : ∀ c ∈ pre, isJsWhiteSpace c = true) (hpost : ∀ c ∈ post, isJsWhiteSpace c = true)
    (hhead : ∀ c, core.head? = some c → isJsWhiteSpace c = false)
    (hlast : ∀ c, core.getLast? = some c → isJsWhiteSpace c = false) :
    (((pre ++ core ++ post).dropWhile isJsWhiteSpace).reverse.dropWhile isJsWhiteSpace).reverse =
      core := by
  cases hcore : core with
  | nil =>
    have hall : ∀ c ∈ pre ++ [] ++ post, isJsWhiteSpace c = true := by
      intro c hc
      simp only [List.append_nil, List.mem_append] at hc
      rcases hc with h | h
      · exact hpre c h
      · exact hpost c h
    rw [List.dropWhile_eq_nil_iff.mpr hall]
    rfl
  | cons a as =>
    have ha : isJsWhiteSpace a = false := hhead a (by rw [hcore]; rfl)
    have h1 : (pre ++ (a :: as) ++ post).dropWhile isJsWhiteSpace = (a :: as) ++ post := by
      rw [List.append_assoc, List.dropWhile_append_of_pos hpre]
      simp [List.dropWhile_cons, ha]
    rw [h1]
    have h2 : ((a :: as) ++ post).reverse = post.reverse ++ (a :: as).reverse := by simp
    rw [h2, List.dropWhile_append_of_pos (by
      intro c hc
      exact hpost c (List.mem_reverse.mp hc))]
    cases hrev : (a :: as).reverse with
    | nil => simp at hrev
    | cons b bs =>
      have hb : isJsWhiteSpace b = false := by
        apply hlast b
        rw [hcore, ← List.head?_reverse, hrev]
        rfl
      have h3 : (b :: bs).dropWhile isJsWhiteSpace = b :: bs := by
        simp [List.dropWhile_cons, hb]
      rw [h3, ← hrev, List.reverse_reverse]

/-- Every string is white space, a core that neither starts nor ends with white space, and
white space again. -/
theorem trim_decomposition (l : List Char) :
    ∃ pre core post, l = pre ++ core ++ post ∧
      (∀ c ∈ pre, isJsWhiteSpace c = true) ∧ (∀ c ∈ post, isJsWhiteSpace c = true) ∧
      (∀ c, core.head? = some c → isJsWhiteSpace c = false) ∧
      (∀ c, core.getLast? = some c → isJsWhiteSpace c = false) := by
  let rest := l.dropWhile isJsWhiteSpace
  refine ⟨l.takeWhile isJsWhiteSpace, (rest.reverse.dropWhile isJsWhiteSpace).reverse,
    (rest.reverse.takeWhile isJsWhiteSpace).reverse, ?_, ?_, ?_, ?_, ?_⟩
  · have hrest : (rest.reverse.dropWhile isJsWhiteSpace).reverse ++
        (rest.reverse.takeWhile isJsWhiteSpace).reverse = rest := by
      rw [← List.reverse_append, List.takeWhile_append_dropWhile, List.reverse_reverse]
    rw [List.append_assoc, hrest]
    exact (List.takeWhile_append_dropWhile isJsWhiteSpace l).symm
  · intro c hc
    exact (List.mem_takeWhile_imp hc)
  · intro c hc
    exact (List.mem_takeWhile_imp (List.mem_reverse.mp hc))
  · intro c hc
    have hrest : rest = (rest.reverse.dropWhile isJsWhiteSpace).reverse ++
        (rest.reverse.takeWhile isJsWhiteSpace).reverse := by
      rw [← List.reverse_append, List.takeWhile_append_dropWhile, List.reverse_reverse]
    have hhead : rest.head? = some c := by
      rw [hrest]
      cases hcore : (rest.reverse.dropWhile isJsWhiteSpace).reverse with
      | nil => rw [hcore] at hc; simp at hc
      | cons a as =>
        rw [hcore] at hc
        simpa using hc
    have := List.head?_dropWhile_not isJsWhiteSpace l
    rw [show l.dropWhile isJsWhiteSpace = rest from rfl, hhead] at this
    simpa using this
  · intro c hc
    rw [List.getLast?_reverse] at hc
    have := List.head?_dropWhile_not isJsWhiteSpace rest.reverse
    rw [hc] at this
    simpa using this

/-- C13. A password is white space, a core that neither starts nor ends with white space,
and white space again. `isValidUserPassword` returns `true` exactly when the core, which is
what `trim` leaves, has between 4 and 10 characters (variation selectors are not counted
by `validator.isLength`); otherwise, and for an absent password, it throws the `AppError`
with statusCode 405. `ab1` is rejected, `abcd` is accepted and `01234567890` is rejected;
white space around the password is not counted, white space inside it is. -/
theorem C13_password_length (password : String) (pre core post : List Char)
    (hpre : ∀ c ∈ pre, isJsWhiteSpace c = true) (hpost : ∀ c ∈ post, isJsWhiteSpace c = true)
    (hhead : ∀ c, core.head? = some c → isJsWhiteSpace c = false)
    (hlast : ∀ c, core.getLast? = some c → isJsWhiteSpace c = false) :
    (isValidUserPassword (some (String.mk (pre ++ core ++ post))) = .ok true ↔
      (4 ≤ (core.filter (fun c => !isVariationSelector c)).length ∧
        (core.filter (fun c => !isVariationSelector c)).length ≤ 10)) ∧
    ((∀ c ∈ core, isVariationSelector c = false) →
      (isValidUserPassword (some (String.mk (pre ++ core ++ post))) = .ok true ↔
        (4 ≤ core.length ∧ core.length ≤ 10))) ∧
    (¬ (4 ≤ (core.filter (fun c => !isVariationSelector c)).length ∧
        (core.filter (fun c => !isVariationSelector c)).length ≤ 10) →
      isValidUserPassword (some (String.mk (pre ++ core ++ post))) =
        .error (.appError "password expected as string between 4 and 10 characters long" 405)) ∧
    (∃ pre2 core2 post2, password.toList = pre2 ++ core2 ++ post2 ∧
      (∀ c ∈ pre2, isJsWhiteSpace c = true) ∧ (∀ c ∈ post2, isJsWhiteSpace c = true) ∧
      (∀ c, core2.head? = some c → isJsWhiteSpace c = false) ∧
      (∀ c, core2.getLast? = some c → isJsWhiteSpace c = false)) ∧
    isValidUserPassword none =
      .error (.appError "password expected as string between 4 and 10 characters long" 405) ∧
    isValidUserPassword (some "ab1") =
      .error (.appError "password expected as string between 4 and 10 characters long" 405) ∧
    isValidUserPassword (some "abcd") = .ok true ∧
    isValidUserPassword (some "01234567890") =
      .error (.appError "password expected as string between 4 and 10 characters long" 405) ∧
    isValidUserPassword (some "  ab  ") =
      .error (.appError "password expected as string between 4 and 10 characters long" 405) ∧
    isValidUserPassword (some " \tabcd\r\n") = .ok true ∧
    isValidUserPassword (some "\u00A0 0123456789 \uFEFF") = .ok true ∧
    isValidUserPassword (some "\u2003 01234567890") =
      .error (.appError "password expected as string between 4 and 10 characters long" 405) ∧
    isValidUserPassword (some "a  b") = .ok true ∧
    isValidUserPassword (some "\u200Bab\u200B") = .ok true ∧
    isValidUserPassword (some "abc\uFE0F") =
      .error (.appError "password expected as string between 4 and 10 characters long" 405) := by
  have h := isValidUserPassword_some (String.mk (pre ++ core ++ post))
  have htrim : jsTrim (String.mk (pre ++ core ++ post)) = String.mk core := by
    unfold jsTrim
    exact congrArg String.mk (trim_chars pre core post hpre hpost hhead hlast)
  rw [htrim] at h
  have hl : isLength (String.mk core) 4 10 = true ↔
      (4 ≤ (core.filter (fun c => !isVariationSelector c)).length ∧
        (core.filter (fun c => !isVariationSelector c)).length ≤ 10) :=
    isLength_iff (String.mk core) 4 10
  have hiff : isValidUserPassword (some (String.mk (pre ++ core ++ post))) = .ok true ↔
      (4 ≤ (core.filter (fun c => !isVariationSelector c)).length ∧
        (core.filter (fun c => !isVariationSelector c)).length ≤ 10) := by
    rw [h, ← hl]
    cases isLength (String.mk core) 4 10 <;> simp
  refine ⟨hiff, ?_, ?_, trim_decomposition password.toList,
    rfl, rfl, rfl, rfl, rfl, rfl, rfl, rfl, rfl, rfl, rfl⟩
  · intro hsel
    rw [hiff, validatorLength_of_no_selector core hsel]
  · intro hn
    rw [← hl] at hn
    rw [h]
    simp [hn]

/-- C13, at the password `abcd` between a tab and a line break. -/
theorem C13_password_length_witness :
    isValidUserPassword (some (String.mk (['\t', ' '] ++ "abcd".toList ++ ['\n']))) = .ok true ∧
    (∀ c ∈ "abcd".toList, isVariationSelector c = false) ∧
    ("abcd".toList.length = 4) :=
  have h := C13_password_length "abcd" ['\t', ' '] "abcd".toList ['\n']
    (by decide) (by decide) (by decide) (by decide)
  ⟨(h.2.1 (by decide)).mpr (by decide), by decide, by decide⟩

theorem validatorLength_of_digits (str : String) (h : str.toList.all Char.isDigit = true) :
    validatorLength str = str.length := by
  unfold validatorLength
  apply validatorLength_of_no_selector
  intro c hc
  have hd : c.isDigit = true := List.all_eq_true.mp h c hc
  unfold Char.isDigit at hd
  unfold isVariationSelector Char.toNat
  simp only [Bool.and_eq_true, decide_eq_true_eq, ge_iff_le] at hd
  have h2 : c.val.toNat ≤ 57 := hd.2
  have e1 : (c.val.toNat == 65038) = false := by
    simp only [beq_eq_false_iff_ne, ne_eq]
    omega
  have e2 : (c.val.toNat == 65039) = false := by
    simp only [beq_eq_false_iff_ne, ne_eq]
    omega
  simp [e1, e2]

theorem not_matchesNonDigit (str : String) :
    (!matchesNonDigit str) = str.toList.all Char.isDigit := by
  unfold matchesNonDigit
  induction str.toList with
  | nil => rfl
  | cons c cs ih =>
    simp only [List.any_cons, List.all_cons, Bool.not_or, Bool.not_not]
    rw [ih]

theorem isValidUserID_some (isEmail : String → Bool) (id : String) (hne : id ≠ "") :
    isValidUserID isEmail (some id) =
      if (id.toList.all Char.isDigit && isLength id 7 15) || isEmail id then .ok true
      else .error (.appError "id expected as phone number or email" 405) := by
  unfold isValidUserID
  simp only [hne, if_false]
  rw [not_matchesNonDigit]
  cases id.toList.all Char.isDigit <;> cases isLength id 7 15 <;> cases isEmail id <;> rfl

/-- C14. For every identifier string, `isValidUserID` returns `true` exactly when the
identifier consists of decimal digits only and has between 7 and 15 characters, or
`validator.isEmail` accepts it; otherwise, and for an empty or absent identifier, it throws
an `AppError` with statusCode 405. `1234567` is accepted, `123456` is rejected and
`user@example.com` is accepted, `validator.isEmail` rejecting the empty string and `123456`
and accepting `user@example.com`. -/
theorem C14_user_id (isEmail : String → Bool) (id : String) (hempty : isEmail "" = false)
    (hdigits : isEmail "123456" = false) (hmail : isEmail "user@example.com" = true) :
    (isValidUserID isEmail (some id) = .ok true ↔
      ((id.toList.all Char.isDigit = true ∧ 7 ≤ id.length ∧ id.length ≤ 15) ∨
        isEmail id = true)) ∧
    (¬ ((id.toList.all Char.isDigit = true ∧ 7 ≤ id.length ∧ id.length ≤ 15) ∨
        isEmail id = true) →
      ∃ m, isValidUserID isEmail (some id) = .error (.appError m 405)) ∧
    isValidUserID isEmail none = .error (.appError "\"id\" param is required" 405) ∧
    isValidUserID isEmail (some "") = .error (.appError "\"id\" param is required" 405) ∧
    isValidUserID isEmail (some "1234567") = .ok true ∧
    isValidUserID isEmail (some "123456") =
      .error (.appError "id expected as phone number or email" 405) ∧
    isValidUserID isEmail (some "user@example.com") = .ok true := by
  have hiff : ((id.toList.all Char.isDigit && isLength id 7 15) || isEmail id) = true ↔
      ((id.toList.all Char.isDigit = true ∧ 7 ≤ id.length ∧ id.length ≤ 15) ∨
        isEmail id = true) := by
    rw [Bool.or_eq_true, Bool.and_eq_true, isLength_iff]
    by_cases hd : id.toList.all Char.isDigit = true
    · rw [validatorLength_of_digits id hd]
    · constructor
      · rintro (h | h)
        · exact absurd h.1 hd
        · exact Or.inr h
      · rintro (h | h)
        · exact absurd h.1 hd
        · exact Or.inr h
  refine ⟨?_, ?_, rfl, rfl, ?_, ?_, ?_⟩
  · by_cases hne : id = ""
    · subst hne
      constructor
      · intro h
        have : isValidUserID isEmail (some "") =
            .error (.appError "\"id\" param is required" 405) := rfl
        rw [this] at h
        simp at h
      · rintro (⟨_, h7, _⟩ | h)
        · exact absurd h7 (by decide)
        · rw [hempty] at h; simp at h
    · rw [isValidUserID_some isEmail id hne, ← hiff]
      cases (id.toList.all Char.isDigit && isLength id 7 15) || isEmail id <;> simp
  · intro hn
    by_cases hne : id = ""
    · subst hne
      exact ⟨_, rfl⟩
    · rw [← hiff] at hn
      rw [isValidUserID_some isEmail id hne]
      simp only [hn, Bool.false_eq_true, if_false]
      exact ⟨_, rfl⟩
  · rw [isValidUserID_some isEmail _ (by decide)]
    have : ("1234567".toList.all Char.isDigit && isLength "1234567" 7 15) = true := by decide
    rw [this]
    rfl
  · rw [isValidUserID_some isEmail _ (by decide), hdigits]
    have : ("123456".toList.all Char.isDigit && isLength "123456" 7 15) = false := by decide
    rw [this]
    rfl
  · rw [isValidUserID_some isEmail _ (by decide), hmail]
    simp

/-- C14, with an email check that asks for one `@` and a dot in the domain. -/
theorem C14_user_id_witness :
    demoIsEmail "" = false ∧ demoIsEmail "123456" = false ∧
    demoIsEmail "user@example.com" = true ∧
    isValidUserID demoIsEmail (some "1234567") = .ok true ∧
    isValidUserID demoIsEmail (some "123456") =
      .error (.appError "id expected as phone number or email" 405) ∧
    isValidUserID demoIsEmail (some "user@example.com") = .ok true :=
  ⟨by decide, by decide, by decide,
    (C14_user_id demoIsEmail "1234567" (by decide) (by decide) (by decide)).2.2.2.2⟩

/-! ## C15: what a gate does when its check fails -/

theorem verifyAccessToken_of_error (env : Env) (now : Nat) (bearer : String)
    (tokens : List Token) (e : Thrown)
    (h : (isValidBearerToken env now bearer tokens).1 = .error e) :
    (verifyAccessToken env now bearer tokens).sent = [handleError e] ∧
      (verifyAccessToken env now bearer tokens).next = false := by
  unfold verifyAccessToken
  rcases hp : isValidBearerToken env now bearer tokens with ⟨r, t⟩
  rw [hp] at h
  simp only at h
  subst h
  exact ⟨rfl, rfl⟩

theorem verifyRefreshToken_of_error (env : Env) (now : Nat) (refresh : String)
    (tokens : List Token) (e : Thrown)
    (h : (isValidRefreshToken env now refresh tokens).1 = .error e) :
    (verifyRefreshToken env now refresh tokens).sent = [handleError e] ∧
      (verifyRefreshToken env now refresh tokens).next = false := by
  unfold verifyRefreshToken
  rcases hp : isValidRefreshToken env now refresh tokens with ⟨r, t⟩
  rw [hp] at h
  simp only at h
  subst h
  exact ⟨rfl, rfl⟩

/-- C15 (what the code does). When `isValidFileID` throws, `checkID` sends the error response
and then calls `next()` all the same: the pipeline is not short-circuited. The other five
gates (`checkUserId`, `checkUserPassword`, `checkVacantID`, `verifyAccessToken`,
`verifyRefreshToken`) send the error response and do not call `next()`. -/
theorem C15_checkID_calls_next_after_error (js : Js) (id : Option String)
    (tokens : List Token) (err : Thrown) (hfail : isValidFileID js id = .error err) :
    ((checkID js id tokens).sent = [handleError err] ∧ (checkID js id tokens).next = true) ∧
    (∀ isEmail uid e, isValidUserID isEmail uid = .error e →
      (checkUserId isEmail uid tokens).sent = [handleError e] ∧
        (checkUserId isEmail uid tokens).next = false) ∧
    (∀ password e, isValidUserPassword password = .error e →
      (checkUserPassword password tokens).sent = [handleError e] ∧
        (checkUserPassword password tokens).next = false) ∧
    (∀ pool uid e, checkIDIsvacantOrThrowTheException pool uid = .error e →
      (checkVacantID pool uid tokens).sent = [handleError e] ∧
        (checkVacantID pool uid tokens).next = false) ∧
    (∀ env now bearer e, (isValidBearerToken env now bearer tokens).1 = .error e →
      (verifyAccessToken env now bearer tokens).sent = [handleError e] ∧
        (verifyAccessToken env now bearer tokens).next = false) ∧
    (∀ env now refresh e, (isValidRefreshToken env now refresh tokens).1 = .error e →
      (verifyRefreshToken env now refresh tokens).sent = [handleError e] ∧
        (verifyRefreshToken env now refresh tokens).next = false) := by
  refine ⟨?_, ?_, ?_, ?_, ?_, ?_⟩
  · unfold checkID
    rw [hfail]
    exact ⟨rfl, rfl⟩
  · intro isEmail uid e h
    unfold checkUserId
    rw [h]
    exact ⟨rfl, rfl⟩
  · intro password e h
    unfold checkUserPassword
    rw [h]
    exact ⟨rfl, rfl⟩
  · intro pool uid e h
    unfold checkVacantID
    rw [h]
    exact ⟨rfl, rfl⟩
  · intro env now bearer e h
    exact verifyAccessToken_of_error env now bearer tokens e h
  · intro env now refresh e h
    exact verifyRefreshToken_of_error env now refresh tokens e h

/-- C15, at the request `GET /file/abc`: the id `abc` is refused with 405 and `next()` is
called. -/
theorem C15_checkID_calls_next_after_error_witness :
    isValidFileID demoJs (some "abc") = .error (.appError "expected id of number type" 405) ∧
    (checkID demoJs (some "abc") []).sent =
      [.failure 405 "fail" "expected id of number type"] ∧
    (checkID demoJs (some "abc") []).next = true :=
  ⟨rfl, (C15_checkID_calls_next_after_error demoJs (some "abc") []
    (.appError "expected id of number type" 405) rfl).1⟩

/-! ## C16: the credential check -/

theorem getUserInfo_ok_iff (pool : Pool) (id : String) (row : UserRow) :
    getUserInfoByIdOrThrowTheException pool id = .ok row ↔
      ∃ users, pool = .up users ∧ (users.filter (fun u => u.id == id)).head? = some row := by
  unfold getUserInfoByIdOrThrowTheException sqlSelectUserById
  cases pool with
  | down m => simp
  | up users =>
    constructor
    · intro h
      refine ⟨users, rfl, ?_⟩
      cases hf : users.filter (fun u => u.id == id) with
      | nil => simp only [hf] at h; simp at h
      | cons a l =>
        simp only [hf] at h
        simp only [Except.ok.injEq] at h
        simp [h]
    · rintro ⟨users2, hp, hh⟩
      have hu : users = users2 := by simpa using hp
      subst hu
      cases hf : users.filter (fun u => u.id == id) with
      | nil => rw [hf] at hh; simp at hh
      | cons a l =>
        rw [hf] at hh
        simp only [List.head?_cons, Option.some.injEq] at hh
        simp only [hf, hh]

theorem confirmUserPassword_ok_iff (compare : String → String → Except String Bool)
    (reqPassword storedPassword : String) :
    confirmUserPassword compare reqPassword storedPassword = .ok true ↔
      compare reqPassword storedPassword = .ok true := by
  unfold confirmUserPassword
  cases compare reqPassword storedPassword with
  | error m => simp
  | ok v => cases v <;> simp

theorem confirmUserPassword_ok_or_error (compare : String → String → Except String Bool)
    (reqPassword storedPassword : String) :
    confirmUserPassword compare reqPassword storedPassword = .ok true ∨
      ∃ m, confirmUserPassword compare reqPassword storedPassword = .error (.appError m 403) := by
  unfold confirmUserPassword
  dsimp only
  split
  · exact Or.inr ⟨_, rfl⟩
  · exact Or.inl rfl

theorem checkUserCredentials_eq (compare : String → String → Except String Bool) (pool : Pool)
    (id password : String) :
    (checkUserCredentials compare pool id password = .ok true ∧
      ∃ row, getUserInfoByIdOrThrowTheException pool id = .ok row ∧
        compare password row.password = .ok true) ∨
    (checkUserCredentials compare pool id password =
        .error (.appError "incorrect id or password" 403) ∧
      ∀ row, getUserInfoByIdOrThrowTheException pool id = .ok row →
        compare password row.password ≠ .ok true) := by
  unfold checkUserCredentials
  cases hu : getUserInfoByIdOrThrowTheException pool id with
  | error e =>
    refine Or.inr ⟨rfl, ?_⟩
    intro row h
    simp at h
  | ok user =>
    rcases confirmUserPassword_ok_or_error compare password user.password with h | ⟨m, h⟩
    · refine Or.inl ⟨by simp only [h], user, rfl, (confirmUserPassword_ok_iff _ _ _).mp h⟩
    · refine Or.inr ⟨by simp only [h], ?_⟩
      intro row hrow hc
      have hrow2 : user = row := by simpa using hrow
      subst hrow2
      rw [(confirmUserPassword_ok_iff _ _ _).mpr hc] at h
      simp at h

/-- C16. `checkUserCredentials` returns `true` or throws the `AppError` "incorrect id or
password" with statusCode 403 and status "fail", nothing else. It returns `true` exactly
when the user row exists and `bcrypt.compare` accepts the password against its stored hash.
A failing lookup, a missing user, a wrong password and a failing comparison all give that
same error. -/
theorem C16_credentials_collapse (compare : String → String → Except String Bool) (pool : Pool)
    (id password : String) :
    (checkUserCredentials compare pool id password = .ok true ∨
      checkUserCredentials compare pool id password =
        .error (.appError "incorrect id or password" 403)) ∧
    handleError (.appError "incorrect id or password" 403) =
      .failure 403 "fail" "incorrect id or password" ∧
    (checkUserCredentials compare pool id password = .ok true ↔
      ∃ users row, pool = .up users ∧
        (users.filter (fun u => u.id == id)).head? = some row ∧
        compare password row.password = .ok true) ∧
    (∀ m, pool = .down m →
      checkUserCredentials compare pool id password =
        .error (.appError "incorrect id or password" 403)) ∧
    (∀ users, pool = .up users → (∀ u ∈ users, u.id ≠ id) →
      checkUserCredentials compare pool id password =
        .error (.appError "incorrect id or password" 403)) ∧
    (∀ row, getUserInfoByIdOrThrowTheException pool id = .ok row →
      compare password row.password = .ok false →
      checkUserCredentials compare pool id password =
        .error (.appError "incorrect id or password" 403)) ∧
    (∀ row m, getUserInfoByIdOrThrowTheException pool id = .ok row →
      compare password row.password = .error m →
      checkUserCredentials compare pool id password =
        .error (.appError "incorrect id or password" 403)) := by
  have hmain := checkUserCredentials_eq compare pool id password
  have hfail : (∀ row, getUserInfoByIdOrThrowTheException pool id = .ok row →
      compare password row.password ≠ .ok true) →
      checkUserCredentials compare pool id password =
        .error (.appError "incorrect id or password" 403) := by
    intro hno
    rcases hmain with ⟨_, row, hrow, hc⟩ | ⟨h, _⟩
    · exact absurd hc (hno row hrow)
    · exact h
  refine ⟨?_, by decide, ?_, ?_, ?_, ?_, ?_⟩
  · rcases hmain with h | h
    · exact Or.inl h.1
    · exact Or.inr h.1
  · constructor
    · intro hok
      rcases hmain with ⟨_, row, hrow, hc⟩ | ⟨h, _⟩
      · obtain ⟨users, hp, hh⟩ := (getUserInfo_ok_iff pool id row).mp hrow
        exact ⟨users, row, hp, hh, hc⟩
      · rw [h] at hok; simp at hok
    · rintro ⟨users, row, hp, hh, hc⟩
      have hrow := (getUserInfo_ok_iff pool id row).mpr ⟨users, hp, hh⟩
      rcases hmain with h | ⟨_, hno⟩
      · exact h.1
      · exact absurd hc (hno row hrow)
  · intro m hp
    apply hfail
    intro row hrow
    obtain ⟨users, hp2, _⟩ := (getUserInfo_ok_iff pool id row).mp hrow
    rw [hp] at hp2
    simp at hp2
  · intro users hp hno
    apply hfail
    intro row hrow
    obtain ⟨users2, hp2, hh⟩ := (getUserInfo_ok_iff pool id row).mp hrow
    rw [hp] at hp2
    have hu : users = users2 := by simpa using hp2
    subst hu
    have hm := List.mem_of_mem_head? hh
    rw [List.mem_filter] at hm
    exact absurd (by simpa using hm.2) (hno row hm.1)
  · intro row hrow hc
    apply hfail
    intro row2 hrow2
    have : row = row2 := by rw [hrow] at hrow2; simpa using hrow2
    subst this
    rw [hc]; simp
  · intro row m hrow hc
    apply hfail
    intro row2 hrow2
    have : row = row2 := by rw [hrow] at hrow2; simpa using hrow2
    subst this
    rw [hc]; simp

/-- C16, at a table with one user: the right password, a wrong one, an unknown id and a
driver that is down. -/
theorem C16_credentials_collapse_witness :
    checkUserCredentials demoCompare (.up [⟨"1234567", "#abcd"⟩]) "1234567" "abcd" = .ok true ∧
    checkUserCredentials demoCompare (.up [⟨"1234567", "#abcd"⟩]) "1234567" "abce" =
      .error (.appError "incorrect id or password" 403) ∧
    checkUserCredentials demoCompare (.up [⟨"1234567", "#abcd"⟩]) "7654321" "abcd" =
      .error (.appError "incorrect id or password" 403) ∧
    checkUserCredentials demoCompare (.down "connect ECONNREFUSED") "1234567" "abcd" =
      .error (.appError "incorrect id or password" 403) :=
  ⟨(C16_credentials_collapse demoCompare (.up [⟨"1234567", "#abcd"⟩]) "1234567" "abcd").2.2.1.mpr
      ⟨[⟨"1234567", "#abcd"⟩], ⟨"1234567", "#abcd"⟩, rfl, by decide, rfl⟩,
    (C16_credentials_collapse demoCompare (.up [⟨"1234567", "#abcd"⟩]) "1234567"
      "abce").2.2.2.2.2.1 ⟨"1234567", "#abcd"⟩ rfl rfl,
    (C16_credentials_collapse demoCompare (.up [⟨"1234567", "#abcd"⟩]) "7654321"
      "abcd").2.2.2.2.1 _ rfl (by decide),
    (C16_credentials_collapse demoCompare (.down "connect ECONNREFUSED") "1234567"
      "abcd").2.2.2.1 _ rfl⟩

/-! ## Helper lemmas on paths -/

theorem splitSlash_ne_nil (l : List Char) : splitSlash l ≠ [] := by
  cases l with
  | nil => simp [splitSlash]
  | cons c cs =>
    unfold splitSlash
    split
    · simp
    · split <;> simp

theorem splitSlash_of_no_slash (seg : List Char) (h : '/' ∉ seg) : splitSlash seg = [seg] := by
  induction seg with
  | nil => rfl
  | cons c cs ih =>
    have hc : c ≠ '/' := fun e => h (e ▸ List.mem_cons_self _ _)
    have hcs : '/' ∉ cs := fun e => h (List.mem_cons_of_mem _ e)
    unfold splitSlash
    simp only [hc, if_false]
    rw [ih hcs]

theorem splitSlash_append_slash (seg rest : List Char) (h : '/' ∉ seg) :
    splitSlash (seg ++ '/' :: rest) = seg :: splitSlash rest := by
  induction seg with
  | nil =>
    show splitSlash ('/' :: rest) = [] :: splitSlash rest
    conv_lhs => rw [splitSlash]
    simp
  | cons c cs ih =>
    have hc : c ≠ '/' := fun e => h (e ▸ List.mem_cons_self _ _)
    have hcs : '/' ∉ cs := fun e => h (List.mem_cons_of_mem _ e)
    show splitSlash (c :: (cs ++ '/' :: rest)) = (c :: cs) :: splitSlash rest
    conv_lhs => rw [splitSlash]
    simp only [hc, if_false]
    rw [ih hcs]

theorem joinSlash_cons (seg : List Char) (rest : List (List Char)) (h : rest ≠ []) :
    joinSlash (seg :: rest) = seg ++ '/' :: joinSlash rest := by
  cases rest with
  | nil => exact absurd rfl h
  | cons a l => rfl

theorem joinSlash_append (A B : List (List Char)) (hA : A ≠ []) (hB : B ≠ []) :
    joinSlash (A ++ B) = joinSlash A ++ '/' :: joinSlash B := by
  induction A with
  | nil => exact absurd rfl hA
  | cons a l ih =>
    cases l with
    | nil =>
      show joinSlash (a :: B) = a ++ '/' :: joinSlash B
      exact joinSlash_cons a B hB
    | cons b l =>
      have h1 : joinSlash (a :: (b :: l ++ B)) = a ++ '/' :: joinSlash (b :: l ++ B) :=
        joinSlash_cons a _ (by simp)
      have h2 : joinSlash (a :: b :: l) = a ++ '/' :: joinSlash (b :: l) :=
        joinSlash_cons a _ (by simp)
      show joinSlash (a :: (b :: l ++ B)) = joinSlash (a :: b :: l) ++ '/' :: joinSlash B
      rw [h1, h2, ih (by simp)]
      simp

theorem splitSlash_joinSlash (L : List (List Char)) (hL : L ≠ [])
    (h : ∀ seg ∈ L, '/' ∉ seg) : splitSlash (joinSlash L) = L := by
  induction L with
  | nil => exact absurd rfl hL
  | cons a l ih =>
    cases l with
    | nil => exact splitSlash_of_no_slash a (h a (List.mem_cons_self _ _))
    | cons b l =>
      rw [joinSlash_cons a _ (by simp),
        splitSlash_append_slash a _ (h a (List.mem_cons_self _ _)),
        ih (by simp) (fun seg hs => h seg (List.mem_cons_of_mem _ hs))]

theorem joinSlash_ne_nil (L : List (List Char)) (hL : L ≠ []) (h : ∀ seg ∈ L, seg ≠ []) :
    joinSlash L ≠ [] := by
  cases L with
  | nil => exact absurd rfl hL
  | cons a l =>
    cases l with
    | nil => exact h a (List.mem_cons_self _ _)
    | cons b l =>
      rw [joinSlash_cons a _ (by simp)]
      simp

theorem normalizeStep_plain (allowAboveRoot : Bool) (res : List (List Char)) (seg : List Char)
    (h : PlainSegment seg) : normalizeStep allowAboveRoot res seg = res ++ [seg] := by
  unfold normalizeStep
  simp [h.1, h.2.2.1, h.2.2.2]

theorem foldl_normalizeStep_plain (allowAboveRoot : Bool) (segs res : List (List Char))
    (h : ∀ seg ∈ segs, PlainSegment seg) :
    segs.foldl (normalizeStep allowAboveRoot) res = res ++ segs := by
  induction segs generalizing res with
  | nil => simp
  | cons a l ih =>
    rw [List.foldl_cons, normalizeStep_plain _ _ _ (h a (List.mem_cons_self _ _)),
      ih _ (fun seg hs => h seg (List.mem_cons_of_mem _ hs))]
    simp

theorem normalizeStep_dotdot (allowAboveRoot : Bool) (A : List (List Char)) (x : List Char)
    (hx : PlainSegment x) : normalizeStep allowAboveRoot (A ++ [x]) ['.', '.'] = A := by
  unfold normalizeStep
  have h1 : ¬ ((['.', '.'] : List Char) = [] ∨ (['.', '.'] : List Char) = ['.']) := by decide
  simp only [h1, if_false, if_true]
  have h2 : A ++ [x] ≠ [] := by simp
  have h3 : (A ++ [x]).getLast? ≠ some ['.', '.'] := by
    rw [List.getLast?_concat]
    simp only [ne_eq, Option.some.injEq]
    exact hx.2.2.2
  simp only [h2, h3, ne_eq, not_false_eq_true, and_self, if_true, List.dropLast_concat]

theorem normalizeStep_nil (allowAboveRoot : Bool) (res : List (List Char)) :
    normalizeStep allowAboveRoot res [] = res := by
  unfold normalizeStep
  simp

theorem joinSlash_concat (A : List (List Char)) (l : List Char) :
    joinSlash (A ++ [l]) = (if A = [] then [] else joinSlash A ++ ['/']) ++ l := by
  by_cases hA : A = []
  · subst hA
    rfl
  · rw [joinSlash_append A [l] hA (by simp)]
    simp [hA, joinSlash]

theorem getLast?_ne_slash (Z l : List Char) (hl : l ≠ []) (hs : '/' ∉ l) :
    (Z ++ l).getLast? ≠ some '/' := by
  rw [List.getLast?_append_of_ne_nil _ hl]
  intro h
  exact hs (List.mem_of_getLast?_eq_some h)

theorem splitSlash_slash_cons (cs : List Char) : splitSlash ('/' :: cs) = [] :: splitSlash cs := by
  conv_lhs => rw [splitSlash]
  simp

/-- The normal form of an absolute path given by its segments. -/
theorem posixNormalize_abs (A R : List (List Char)) (l : List Char) (hl : l ≠ [])
    (hsl : ∀ seg ∈ A ++ [l], '/' ∉ seg)
    (hfold : (A ++ [l]).foldl (normalizeStep false) [] = R) (hR : ∀ seg ∈ R, seg ≠ []) :
    posixNormalize ('/' :: joinSlash (A ++ [l])) =
      if R = [] then ['/'] else '/' :: joinSlash R := by
  have hlast : ('/' :: joinSlash (A ++ [l])).getLast? ≠ some '/' := by
    rw [joinSlash_concat]
    have := getLast?_ne_slash ('/' :: (if A = [] then [] else joinSlash A ++ ['/'])) l hl
      (hsl l (by simp))
    simpa using this
  have hsplit : splitSlash ('/' :: joinSlash (A ++ [l])) = [] :: (A ++ [l]) := by
    rw [splitSlash_slash_cons, splitSlash_joinSlash _ (by simp) hsl]
  have hns : normalizeString ('/' :: joinSlash (A ++ [l])) false = joinSlash R := by
    unfold normalizeString
    rw [hsplit, List.foldl_cons, normalizeStep_nil, hfold]
  unfold posixNormalize
  have hne : ¬ ('/' :: joinSlash (A ++ [l]) = []) := by simp
  have habs : (('/' :: joinSlash (A ++ [l])).head? == some '/') = true := by simp
  have htr : (('/' :: joinSlash (A ++ [l])).getLast? == some '/') = false := by
    simpa using hlast
  simp only [hne, if_false, habs, htr, Bool.not_true, hns, if_true, Bool.false_eq_true]
  by_cases hRn : R = []
  · subst hRn
    simp [joinSlash]
  · simp [hRn, joinSlash_ne_nil R hRn hR]

theorem dropWhile_slash_of_no_slash (l r : List Char) (hl : l ≠ []) (hs : '/' ∉ l) :
    (l ++ r).dropWhile (fun x => x = '/') = l ++ r := by
  cases l with
  | nil => exact absurd rfl hl
  | cons y ys =>
    have hy : y ≠ '/' := fun e => hs (e ▸ List.mem_cons_self _ _)
    simp [List.dropWhile_cons, hy]

theorem posixDirname_abs (X l : List Char) (hX : X ≠ []) (hl : l ≠ []) (hs : '/' ∉ l) :
    posixDirname ('/' :: (X ++ '/' :: l)) = '/' :: X := by
  have hr : (X ++ '/' :: l).reverse = l.reverse ++ ('/' :: X.reverse) := by simp
  have hl2 : l.reverse ≠ [] := by simpa using hl
  have hs2 : '/' ∉ l.reverse := by simpa using hs
  have h1 : ((X ++ '/' :: l).reverse.dropWhile (fun x => x = '/')).dropWhile
      (fun x => x ≠ '/') = '/' :: X.reverse := by
    rw [hr, dropWhile_slash_of_no_slash _ _ hl2 hs2,
      List.dropWhile_append_of_pos (by
        intro a ha
        have : a ≠ '/' := fun e => hs2 (e ▸ ha)
        simpa using this)]
    simp [List.dropWhile_cons]
  unfold posixDirname
  simp only [h1]
  have hX2 : X.reverse ≠ [] := by simpa using hX
  simp [hX2]

theorem posixDirname_root (l : List Char) (hl : l ≠ []) (hs : '/' ∉ l) :
    posixDirname ('/' :: l) = ['/'] := by
  have hl2 : l.reverse ≠ [] := by simpa using hl
  have hs2 : '/' ∉ l.reverse := by simpa using hs
  have h0 := dropWhile_slash_of_no_slash l.reverse [] hl2 hs2
  simp only [List.append_nil] at h0
  have h1 : (l.reverse.dropWhile (fun x => x = '/')).dropWhile (fun x => x ≠ '/') = [] := by
    rw [h0, List.dropWhile_eq_nil_iff]
    intro a ha
    have : a ≠ '/' := fun e => hs2 (e ▸ ha)
    simpa using this
  unfold posixDirname
  simp only [h1]
  simp

theorem posixBasename_last (P l : List Char) (hl : l ≠ []) (hs : '/' ∉ l) :
    posixBasename (P ++ '/' :: l) = l := by
  have hr : (P ++ '/' :: l).reverse = l.reverse ++ ('/' :: P.reverse) := by simp
  have hl2 : l.reverse ≠ [] := by simpa using hl
  have hs2 : '/' ∉ l.reverse := by simpa using hs
  unfold posixBasename
  rw [hr, dropWhile_slash_of_no_slash _ _ hl2 hs2,
    List.takeWhile_append_of_pos (by
      intro a ha
      have : a ≠ '/' := fun e => hs2 (e ▸ ha)
      simpa using this)]
  simp [List.takeWhile_cons]

/-- The path `path.join(__dirname, '..', stored)` for a `__dirname` and a stored path made of
plain segments. -/
theorem posixJoin_resolved (D P : List (List Char)) (x l : List Char)
    (hD : ∀ seg ∈ D ++ [x], PlainSegment seg) (hP : ∀ seg ∈ P ++ [l], PlainSegment seg) :
    posixJoin ['/' :: joinSlash (D ++ [x]), ['.', '.'], joinSlash (P ++ [l])] =
      '/' :: joinSlash ((D ++ P) ++ [l]) := by
  have hl : PlainSegment l := hP l (by simp)
  have hx : PlainSegment x := hD x (by simp)
  have hpne : joinSlash (P ++ [l]) ≠ [] :=
    joinSlash_ne_nil _ (by simp) (fun seg hs => (hP seg hs).1)
  have hjoin : joinSlash ['/' :: joinSlash (D ++ [x]), ['.', '.'], joinSlash (P ++ [l])] =
      '/' :: joinSlash (((D ++ [x]) ++ ['.', '.'] :: P) ++ [l]) := by
    have e : ((D ++ [x]) ++ ['.', '.'] :: P) ++ [l] = (D ++ [x]) ++ (['.', '.'] :: (P ++ [l])) := by
      simp
    rw [e, joinSlash_append (D ++ [x]) _ (by simp) (by simp),
      joinSlash_cons ['.', '.'] (P ++ [l]) (by simp)]
    simp [joinSlash]
  have hfold : (((D ++ [x]) ++ ['.', '.'] :: P) ++ [l]).foldl (normalizeStep false) [] =
      (D ++ P) ++ [l] := by
    have e : ((D ++ [x]) ++ ['.', '.'] :: P) ++ [l] = (D ++ [x]) ++ (['.', '.'] :: (P ++ [l])) := by
      simp
    rw [e, List.foldl_append, foldl_normalizeStep_plain false _ _ hD, List.nil_append,
      List.foldl_cons, normalizeStep_dotdot false D x hx, foldl_normalizeStep_plain false _ _ hP]
    simp
  have hsl : ∀ seg ∈ ((D ++ [x]) ++ ['.', '.'] :: P) ++ [l], '/' ∉ seg := by
    intro seg hs
    have e : ((D ++ [x]) ++ ['.', '.'] :: P) ++ [l] = (D ++ [x]) ++ (['.', '.'] :: (P ++ [l])) := by
      simp
    rw [e] at hs
    rcases List.mem_append.mp hs with h | h
    · exact (hD seg h).2.1
    · rcases List.mem_cons.mp h with h | h
      · rw [h]; decide
      · exact (hP seg h).2.1
  have hR : ∀ seg ∈ (D ++ P) ++ [l], seg ≠ [] := by
    intro seg hs
    rw [List.append_assoc] at hs
    rcases List.mem_append.mp hs with h | h
    · exact (hD seg (List.mem_append_left _ h)).1
    · exact (hP seg h).1
  have hn := posixNormalize_abs ((D ++ [x]) ++ ['.', '.'] :: P) _ l hl.1 hsl hfold hR
  unfold posixJoin
  have hfilter : ['/' :: joinSlash (D ++ [x]), ['.', '.'], joinSlash (P ++ [l])].filter
      (fun a => a ≠ []) = ['/' :: joinSlash (D ++ [x]), ['.', '.'], joinSlash (P ++ [l])] := by
    simp [List.filter_cons, hpne]
  rw [hfilter]
  simp only
  rw [hjoin, hn]
  simp

/-- The fixed root `path.join(__dirname, '..')` for a `__dirname` made of plain segments. -/
theorem posixJoin_fixedRoot (D : List (List Char)) (x : List Char)
    (hD : ∀ seg ∈ D ++ [x], PlainSegment seg) :
    posixJoin ['/' :: joinSlash (D ++ [x]), ['.', '.']] =
      if D = [] then ['/'] else '/' :: joinSlash D := by
  have hx : PlainSegment x := hD x (by simp)
  have hjoin : joinSlash ['/' :: joinSlash (D ++ [x]), ['.', '.']] =
      '/' :: joinSlash ((D ++ [x]) ++ [['.', '.']]) := by
    rw [joinSlash_append (D ++ [x]) _ (by simp) (by simp)]
    simp [joinSlash]
  have hfold : ((D ++ [x]) ++ [['.', '.']]).foldl (normalizeStep false) [] = D := by
    rw [List.foldl_append, foldl_normalizeStep_plain false _ _ hD, List.nil_append]
    simp only [List.foldl_cons, List.foldl_nil]
    exact normalizeStep_dotdot false D x hx
  have hsl : ∀ seg ∈ (D ++ [x]) ++ [['.', '.']], '/' ∉ seg := by
    intro seg hs
    rcases List.mem_append.mp hs with h | h
    · exact (hD seg h).2.1
    · rw [List.mem_singleton.mp h]; decide
  have hR : ∀ seg ∈ D, seg ≠ [] := fun seg hs => (hD seg (List.mem_append_left _ hs)).1
  have hn := posixNormalize_abs (D ++ [x]) D ['.', '.'] (by decide) hsl hfold hR
  unfold posixJoin
  have hfilter : ['/' :: joinSlash (D ++ [x]), ['.', '.']].filter (fun a => a ≠ []) =
      ['/' :: joinSlash (D ++ [x]), ['.', '.']] := by
    simp [List.filter_cons]
  rw [hfilter]
  simp only
  rw [hjoin, hn]

theorem posixDirname_resolved (Q : List (List Char)) (l : List Char)
    (hQ : ∀ seg ∈ Q, seg ≠ []) (hl : PlainSegment l) :
    posixDirname ('/' :: joinSlash (Q ++ [l])) = if Q = [] then ['/'] else '/' :: joinSlash Q := by
  rw [joinSlash_concat]
  by_cases hq : Q = []
  · simp only [hq, if_true, List.nil_append]
    exact posixDirname_root l hl.1 hl.2.1
  · simp only [hq, if_false, List.append_assoc, List.singleton_append]
    exact posixDirname_abs (joinSlash Q) l (joinSlash_ne_nil Q hq hQ) hl.1 hl.2.1

theorem posixBasename_resolved (Q : List (List Char)) (l : List Char) (hl : PlainSegment l) :
    posixBasename ('/' :: joinSlash (Q ++ [l])) = l := by
  rw [joinSlash_concat]
  by_cases hq : Q = []
  · simp only [hq, if_true, List.nil_append]
    exact posixBasename_last [] l hl.1 hl.2.1
  · simp only [hq, if_false, List.append_assoc, List.singleton_append]
    have := posixBasename_last ('/' :: joinSlash Q) l hl.1 hl.2.1
    simpa using this

theorem posixJoin_root_base (Q : List (List Char)) (l : List Char)
    (hQ : ∀ seg ∈ Q ++ [l], PlainSegment seg) :
    posixJoin [if Q = [] then ['/'] else '/' :: joinSlash Q, l] = '/' :: joinSlash (Q ++ [l]) := by
  have hl : PlainSegment l := hQ l (by simp)
  have hR : ∀ seg ∈ Q ++ [l], seg ≠ [] := fun seg hs => (hQ seg hs).1
  have hsl : ∀ seg ∈ Q ++ [l], '/' ∉ seg := fun seg hs => (hQ seg hs).2.1
  unfold posixJoin
  by_cases hq : Q = []
  · subst hq
    have hfilter : [['/'], l].filter (fun a => a ≠ []) = [['/'], l] := by
      simp [List.filter_cons, hl.1]
    simp only [if_true, hfilter]
    have hjoin : joinSlash [['/'], l] = '/' :: joinSlash ([[]] ++ [l]) := by
      simp [joinSlash]
    have hfold : ([[]] ++ [l]).foldl (normalizeStep false) [] = [l] := by
      simp only [List.singleton_append, List.foldl_cons, List.foldl_nil, normalizeStep_nil]
      exact normalizeStep_plain false [] l hl
    have hsl2 : ∀ seg ∈ [[]] ++ [l], '/' ∉ seg := by
      intro seg hs
      rcases List.mem_append.mp hs with h | h
      · rw [List.mem_singleton.mp h]; simp
      · rw [List.mem_singleton.mp h]; exact hl.2.1
    have hn := posixNormalize_abs [[]] [l] l hl.1 hsl2 hfold
      (fun seg hs => by rw [List.mem_singleton.mp hs]; exact hl.1)
    rw [hjoin, hn]
    simp [joinSlash]
  · have hfilter : ['/' :: joinSlash Q, l].filter (fun a => a ≠ []) = ['/' :: joinSlash Q, l] := by
      simp [List.filter_cons, hl.1]
    simp only [hq, if_false, hfilter]
    have hjoin : joinSlash ['/' :: joinSlash Q, l] = '/' :: joinSlash (Q ++ [l]) := by
      rw [joinSlash_append Q [l] hq (by simp)]
      simp [joinSlash]
    have hfold : (Q ++ [l]).foldl (normalizeStep false) [] = Q ++ [l] := by
      rw [foldl_normalizeStep_plain false _ _ hQ]
      simp
    have hn := posixNormalize_abs Q (Q ++ [l]) l hl.1 hsl hfold hR
    rw [hjoin, hn]
    simp

theorem isAtOrBelow_iff (root dir : String) :
    isAtOrBelow root dir = true ↔
      (dir = root ∨ (root = "/" ∧ dir.toList.head? = some '/') ∨
        (root.toList ++ ['/']) <+: dir.toList) := by
  unfold isAtOrBelow
  simp [Bool.or_eq_true, or_assoc]

/-- For a `__dirname` and a stored path made of plain segments, the directory returned as
`root` is the fixed root or lies below it, and joining it with the base name gives the
resolved path back. -/
theorem send_plain_segments (D P : List (List Char)) (x l : List Char)
    (hD : ∀ seg ∈ D ++ [x], PlainSegment seg) (hP : ∀ seg ∈ P ++ [l], PlainSegment seg) :
    isAtOrBelow (String.mk (posixJoin ['/' :: joinSlash (D ++ [x]), ['.', '.']]))
        (String.mk (posixDirname
          (posixJoin ['/' :: joinSlash (D ++ [x]), ['.', '.'], joinSlash (P ++ [l])]))) = true ∧
    posixJoin
        [posixDirname (posixJoin ['/' :: joinSlash (D ++ [x]), ['.', '.'], joinSlash (P ++ [l])]),
          posixBasename
            (posixJoin ['/' :: joinSlash (D ++ [x]), ['.', '.'], joinSlash (P ++ [l])])] =
      posixJoin ['/' :: joinSlash (D ++ [x]), ['.', '.'], joinSlash (P ++ [l])] := by
  have hl : PlainSegment l := hP l (by simp)
  have hQ : ∀ seg ∈ (D ++ P) ++ [l], PlainSegment seg := by
    intro seg hs
    rw [List.append_assoc] at hs
    rcases List.mem_append.mp hs with h | h
    · exact hD seg (List.mem_append_left _ h)
    · exact hP seg h
  have hQ2 : ∀ seg ∈ D ++ P, seg ≠ [] := fun seg hs => (hQ seg (List.mem_append_left _ hs)).1
  rw [posixJoin_resolved D P x l hD hP, posixJoin_fixedRoot D x hD,
    posixDirname_resolved (D ++ P) l hQ2 hl, posixBasename_resolved (D ++ P) l hl]
  refine ⟨?_, posixJoin_root_base (D ++ P) l hQ⟩
  rw [isAtOrBelow_iff]
  by_cases hd : D = []
  · subst hd
    by_cases hp : P = []
    · subst hp
      exact Or.inl rfl
    · refine Or.inr (Or.inl ⟨rfl, ?_⟩)
      simp [hp]
  · by_cases hp : P = []
    · subst hp
      exact Or.inl (by simp)
    · refine Or.inr (Or.inr ?_)
      have hne : D ++ P ≠ [] := by simp [hd]
      simp only [hd, hne, if_false]
      rw [joinSlash_append D P hd hp]
      exact ⟨joinSlash P, by simp⟩

/-! ## C17: the download resolves the stored path and checks nothing -/

/-- C17 (amended). For every file row, `sendFileOrThrowTheException` resolves the stored
path against the fixed root and returns `root` and `path` as the directory name and the
base name of the resolved path and `filename` as the name of the row: it rejects no stored
path. When `__dirname` and the stored path are made of plain segments (no empty segment,
no `.`, no `..`), `root` is the fixed root or lies below it, and `root` joined with `path`
is the resolved stored path. -/
theorem C17_send_file_resolves_unchecked (dirname : String) (w : World) (id : Nat)
    (row : FileRow) (hrow : getFileInfoByIdOrThrowTheException w id = .ok row) :
    sendFileOrThrowTheException dirname w id =
      .ok { root := pathDirname (pathJoin [dirname, "..", row.path]),
            path := pathBasename (pathJoin [dirname, "..", row.path]),
            filename := row.name } ∧
    (∀ dirSegs pathSegs : List (List Char), dirSegs ≠ [] → pathSegs ≠ [] →
      (∀ seg ∈ dirSegs, PlainSegment seg) → (∀ seg ∈ pathSegs, PlainSegment seg) →
      dirname.toList = '/' :: joinSlash dirSegs → row.path.toList = joinSlash pathSegs →
      isAtOrBelow (fixedRoot dirname)
        (pathDirname (pathJoin [dirname, "..", row.path])) = true ∧
      pathJoin [pathDirname (pathJoin [dirname, "..", row.path]),
        pathBasename (pathJoin [dirname, "..", row.path])] =
        pathJoin [dirname, "..", row.path]) := by
  constructor
  · unfold sendFileOrThrowTheException
    rw [hrow]
  · intro dirSegs pathSegs hdne hpne hD hP hdir hpath
    rcases List.eq_nil_or_concat dirSegs with h | ⟨D, x, h⟩
    · exact absurd h hdne
    rcases List.eq_nil_or_concat pathSegs with h2 | ⟨P, l, h2⟩
    · exact absurd h2 hpne
    rw [List.concat_eq_append] at h h2
    subst h h2
    have hmain := send_plain_segments D P x l hD hP
    have e1 : pathJoin [dirname, "..", row.path] =
        String.mk (posixJoin ['/' :: joinSlash (D ++ [x]), ['.', '.'], joinSlash (P ++ [l])]) := by
      unfold pathJoin
      simp only [List.map_cons, List.map_nil, hdir, hpath]
      rfl
    have e2 : fixedRoot dirname =
        String.mk (posixJoin ['/' :: joinSlash (D ++ [x]), ['.', '.']]) := by
      unfold fixedRoot pathJoin
      simp only [List.map_cons, List.map_nil, hdir]
      rfl
    rw [e1, e2]
    refine ⟨hmain.1, ?_⟩
    exact congrArg String.mk hmain.2

/-- C17 (amended), at the row 1 of the example state, stored under `upload/f1`. -/
theorem C17_send_file_resolves_unchecked_witness :
    sendFileOrThrowTheException "/srv/app/model" demoWorld 1 =
      .ok { root := "/srv/app/upload", path := "f1", filename := "a.txt" } ∧
    isAtOrBelow (fixedRoot "/srv/app/model") "/srv/app/upload" = true ∧
    pathJoin ["/srv/app/upload", "f1"] = "/srv/app/upload/f1" :=
  have h := C17_send_file_resolves_unchecked "/srv/app/model" demoWorld 1
    { id := 1, name := "a.txt", extension := "txt", mimetype := "text/plain", size := 3,
      uploaded := 10, path := "upload/f1" } rfl
  ⟨h.1, (h.2 ["srv".toList, "app".toList, "model".toList] ["upload".toList, "f1".toList]
      (by decide) (by decide) (by decide) (by decide) (by decide) (by decide)).1,
    (h.2 ["srv".toList, "app".toList, "model".toList] ["upload".toList, "f1".toList]
      (by decide) (by decide) (by decide) (by decide) (by decide) (by decide)).2⟩

/-- C17 (as stated) fails for a stored path with `..` segments: with `__dirname`
`/srv/app/model` the fixed root is `/srv/app`, the stored path `../../etc/passwd` is not
rejected, and the returned `root` is `/etc`, outside the fixed root. -/
theorem C17_counterexample :
    fixedRoot "/srv/app/model" = "/srv/app" ∧
    sendFileOrThrowTheException "/srv/app/model" escapeWorld 1 =
      .ok { root := "/etc", path := "passwd", filename := "passwd" } ∧
    isAtOrBelow (fixedRoot "/srv/app/model") "/etc" = false := by
  refine ⟨by decide, rfl, by decide⟩

end Aero
